import Mathlib

/-!
# GetModelMetadata: validation, dispatch and the two metadata extractors

A shallow embedding of
`tensorflow_serving/servables/tensorflow/get_model_metadata_impl.cc`.

* Protocol-buffer messages are structures; an optional sub-message is an
  `Option`, a `map<string, V>` field is a `ProtoMap V` (a key/value list with
  pairwise distinct keys), a `repeated` field is a `List`.
* `tensorflow::Status` is `Status`: either `OK` or an error code with a message.
* `ServerCore::GetServableHandle` is an external collaborator.  It is a
  parameter of the development: a transition function on an arbitrary core
  state `σ`, so that its answer may differ from one invocation to the next.
* The output parameter `GetModelMetadataResponse* response` is threaded
  through every function as part of a `Run`, together with the core state and
  the log of the resolver invocations performed so far.
-/

namespace tensorflow

/-! ## Protocol-buffer maps -/

/-- Modelled from the spec: `google::protobuf::Map<string, V>`, whose declaration
is not part of the sources.  Keys are unique. -/
structure ProtoMap (V : Type) where
  entries : List (String × V)
  nodup : (entries.map Prod.fst).Nodup
deriving DecidableEq

namespace ProtoMap

variable {V : Type}

/-- First value stored under `k` in a key/value list. -/
def findEntry (k : String) : List (String × V) → Option V
  | [] => none
  | (k', v) :: rest => if k' = k then some v else findEntry k rest

/-- Overwrite the value stored under `k`, or append a new entry when `k` is
not yet a key. -/
def setEntry (k : String) (v : V) : List (String × V) → List (String × V)
  | [] => [(k, v)]
  | (k', v') :: rest =>
    if k' = k then (k, v) :: rest else (k', v') :: setEntry k v rest

theorem keys_setEntry (k : String) (v : V) (l : List (String × V)) :
    (setEntry k v l).map Prod.fst =
      if k ∈ l.map Prod.fst then l.map Prod.fst else l.map Prod.fst ++ [k] := by
  induction l with
  | nil => simp [setEntry]
  | cons hd tl ih =>
    obtain ⟨k', v'⟩ := hd
    by_cases h : k' = k
    · subst h; simp [setEntry]
    · have h' : ¬ k = k' := fun e => h e.symm
      simp only [setEntry, h, if_false, List.map_cons, ih, List.mem_cons, h', false_or]
      split <;> simp

theorem nodup_setEntry (k : String) (v : V) (l : List (String × V))
    (h : (l.map Prod.fst).Nodup) : ((setEntry k v l).map Prod.fst).Nodup := by
  rw [keys_setEntry]
  split
  · exact h
  · rename_i hk
    exact List.Nodup.append h (List.nodup_singleton k) (by
      intro a ha hb
      simp only [List.mem_singleton] at hb
      exact hk (hb ▸ ha))

/-- The map with no entry. -/
def empty : ProtoMap V := ⟨[], List.nodup_nil⟩

/-- Lookup, `map.find(k)`: `none` stands for `map.end()`. -/
def find (m : ProtoMap V) (k : String) : Option V := findEntry k m.entries

/-- Assignment through `map[k] = v`. -/
def set (m : ProtoMap V) (k : String) (v : V) : ProtoMap V :=
  ⟨setEntry k v m.entries, nodup_setEntry k v m.entries m.nodup⟩

/-- The keys of the map, in iteration order. -/
def keys (m : ProtoMap V) : List String := m.entries.map Prod.fst

end ProtoMap

/-! ## Status -/

namespace error

/-- Modelled from the spec: the non-OK values of `tensorflow::error::Code`
(declared in TensorFlow, not in the sources). -/
inductive Code
  | CANCELLED | UNKNOWN | INVALID_ARGUMENT | DEADLINE_EXCEEDED | NOT_FOUND
  | ALREADY_EXISTS | PERMISSION_DENIED | UNAUTHENTICATED | RESOURCE_EXHAUSTED
  | FAILED_PRECONDITION | ABORTED | OUT_OF_RANGE | UNIMPLEMENTED | INTERNAL
  | UNAVAILABLE | DATA_LOSS
deriving DecidableEq, Repr

end error

/-- Modelled from the spec: `tensorflow::Status`, either OK or an error code
together with its message. -/
inductive Status
  | OK
  | Error (code : error.Code) (error_message : String)
deriving DecidableEq, Repr

namespace Status

/-- Success test, `status.ok()`. -/
def ok : Status → Bool
  | OK => true
  | Error _ _ => false

/-- Error code of a status, `none` for OK. -/
def code : Status → Option error.Code
  | OK => none
  | Error c _ => some c

/-- Message of a status, empty for OK. -/
def error_message : Status → String
  | OK => ""
  | Error _ m => m

end Status

namespace strings

/-- Modelled from the TensorFlow library, whose sources are not part of the
repository: `tensorflow::strings::StrCat`, the concatenation of its arguments in
order. -/
def StrCat (args : List String) : String := String.join args

end strings

namespace errors

/-- Modelled from the TensorFlow library, whose sources are not part of the
repository: `tensorflow::errors::InvalidArgument(args...)` is declared in
`tensorflow/core/lib/core/errors.h` as a variadic template that returns
`Status(error::INVALID_ARGUMENT, strings::StrCat(args...))`.  The arguments are
concatenated in order; no format directive is interpreted. -/
def InvalidArgument (args : List String) : Status :=
  Status.Error error.Code.INVALID_ARGUMENT (strings.StrCat args)

end errors

/-! ## Messages -/

/-- Modelled from the spec: the `TensorInfo` message, a tensor binding. -/
structure TensorInfo where
  name : String
  dtype : Nat
  tensor_shape : List Int
deriving DecidableEq

/-- Modelled from the spec: the `SignatureDef` message, the descriptor of one
signature. -/
structure SignatureDef where
  inputs : ProtoMap TensorInfo
  outputs : ProtoMap TensorInfo
  method_name : String
deriving DecidableEq

/-- Modelled from the spec: the `SignatureDefMap` message. -/
structure SignatureDefMap where
  signature_def : ProtoMap SignatureDef
deriving DecidableEq

namespace SignatureDefMap

/-- Access through `mutable_signature_def()`, followed by an assignment
`[name] = sig`. -/
def set (m : SignatureDefMap) (name : String) (sig : SignatureDef) : SignatureDefMap :=
  ⟨m.signature_def.set name sig⟩

end SignatureDefMap

/-- Modelled from the spec: `google::protobuf::StringValue`. -/
structure StringValue where
  value : String
deriving DecidableEq

/-- Modelled from the spec: `google::protobuf::Any` as filled by `PackFrom`;
the constructor is the type tag of the packed message. -/
inductive Any
  | SignatureDefMap (m : SignatureDefMap)
  | StringValue (s : StringValue)
deriving DecidableEq

/-- Modelled from the spec: the `CollectionDef` message, a oneof over five list
kinds.  Floats are kept as their bit patterns. -/
inductive CollectionDef
  | kind_not_set
  | node_list (value : List String)
  | bytes_list (value : List String)
  | int64_list (value : List Int)
  | float_list (value : List Nat)
  | any_list (value : List String)
deriving DecidableEq

namespace CollectionDef

/-- Accessor `bytes_list().value()`: the blobs when the oneof holds a bytes
list, the empty list of the default instance otherwise. -/
def bytes_list_value : CollectionDef → List String
  | bytes_list value => value
  | _ => []

end CollectionDef

/-- Modelled from the spec: the part of `MetaGraphDef` that the servable reads. -/
structure MetaGraphDef where
  signature_def : ProtoMap SignatureDef
  collection_def : ProtoMap CollectionDef
deriving DecidableEq

namespace serving

/-- Modelled from the spec: the `ModelSpec` message; `version` is an optional
`Int64Value` wrapper. -/
structure ModelSpec where
  name : String
  version : Option Int
  signature_name : String
deriving DecidableEq, Repr

namespace ModelSpec

/-- Default instance of the message. -/
def default_instance : ModelSpec := ⟨"", none, ""⟩

end ModelSpec

/-- Modelled from the spec: the `GetModelMetadataRequest` message. -/
structure GetModelMetadataRequest where
  model_spec? : Option ModelSpec
  metadata_field : List String
deriving DecidableEq

namespace GetModelMetadataRequest

/-- Presence test `has_model_spec()`. -/
def has_model_spec (r : GetModelMetadataRequest) : Bool := r.model_spec?.isSome

/-- Accessor `model_spec()`: the default instance when the field is unset. -/
def model_spec (r : GetModelMetadataRequest) : ModelSpec :=
  r.model_spec?.getD ModelSpec.default_instance

/-- Accessor `metadata_field_size()`. -/
def metadata_field_size (r : GetModelMetadataRequest) : Nat := r.metadata_field.length

end GetModelMetadataRequest

/-- Modelled from the spec: the `GetModelMetadataResponse` message. -/
structure GetModelMetadataResponse where
  model_spec? : Option ModelSpec
  metadata : ProtoMap Any
deriving DecidableEq

namespace GetModelMetadataResponse

/-- The response with no field set. -/
def empty : GetModelMetadataResponse := ⟨none, ProtoMap.empty⟩

/-- Accessor `mutable_model_spec()`: the sub-message, created when unset. -/
def mutable_model_spec (r : GetModelMetadataResponse) : ModelSpec :=
  r.model_spec?.getD ModelSpec.default_instance

end GetModelMetadataResponse

/-- Modelled from the spec: `ServableId`, the resolved identity of a servable. -/
structure ServableId where
  name : String
  version : Int
deriving DecidableEq

/-- Modelled from the spec: a non-null `ServableHandle<SavedModelBundle>`: the
resolved identity and the bundle's meta graph. -/
structure ServableHandle where
  id : ServableId
  meta_graph_def : MetaGraphDef
deriving DecidableEq

/-- Result of one invocation of the resolver: a handle with an OK status, or a
non-OK status. -/
inductive Resolved
  | handle (bundle : ServableHandle)
  | failed (code : error.Code) (error_message : String)
deriving DecidableEq

/-- Modelled from the spec: the resolver `ServerCore::GetServableHandle`, taken
as a parameter.  It maps the core's current state and a model identifier to
its answer and the core's next state. -/
structure ServerCore (σ : Type) where
  GetServableHandle : σ → ModelSpec → Resolved × σ

/-- What a call threads through: the response being filled, the state of the
core and the log of resolver invocations (argument and answer, oldest first). -/
structure Run (σ : Type) where
  response : GetModelMetadataResponse
  state : σ
  calls : List (ModelSpec × Resolved)

/-! ## The source -/

def kSignatureDef : String := "signature_def"

def kPreProcessingSettings : String := "preprocessing_settings"

/-- The loop of `ValidateGetModelMetadataRequest` over the requested fields. -/
def ValidateGetModelMetadataRequest.loop : List String → Status
  | [] => Status.OK
  | metadata_field :: rest =>
    if metadata_field ≠ kSignatureDef ∧ metadata_field ≠ kPreProcessingSettings then
      errors.InvalidArgument ["Metadata field %s is not supported", metadata_field]
    else ValidateGetModelMetadataRequest.loop rest

def ValidateGetModelMetadataRequest (request : GetModelMetadataRequest) : Status :=
  if !request.has_model_spec then
    Status.Error error.Code.INVALID_ARGUMENT "Missing ModelSpec"
  else if request.metadata_field_size = 0 then
    Status.Error error.Code.INVALID_ARGUMENT
      "GetModelMetadataRequest must specify at least one metadata_field"
  else ValidateGetModelMetadataRequest.loop request.metadata_field

/-- One invocation `core->GetServableHandle(request.model_spec(), &bundle)`,
recorded in the log. -/
def GetServableHandle {σ : Type} (core : ServerCore σ) (request : GetModelMetadataRequest)
    (w : Run σ) : Resolved × Run σ :=
  let r := core.GetServableHandle w.state request.model_spec
  (r.1, { w with state := r.2, calls := w.calls ++ [(request.model_spec, r.1)] })

/-- The statements `set_name(bundle.id().name)` and
`mutable_version()->set_value(bundle.id().version)` on `mutable_model_spec()`. -/
def set_model_spec (response : GetModelMetadataResponse) (id : ServableId) :
    GetModelMetadataResponse :=
  { response with
    model_spec? := some { response.mutable_model_spec with
                          name := id.name, version := some id.version } }

/-- The statement `(*response->mutable_metadata())[key].PackFrom(payload)`. -/
def pack_metadata (response : GetModelMetadataResponse) (key : String) (payload : Any) :
    GetModelMetadataResponse :=
  { response with metadata := response.metadata.set key payload }

def GetModelPreProcessingSettings {σ : Type} (core : ServerCore σ)
    (request : GetModelMetadataRequest) (w : Run σ) : Status × Run σ :=
  match GetServableHandle core request w with
  | (Resolved.failed code msg, w1) => (Status.Error code msg, w1)
  | (Resolved.handle bundle, w1) =>
    let w2 := { w1 with response := set_model_spec w1.response bundle.id }
    match bundle.meta_graph_def.collection_def.find "PreProcessingSettings" with
    | none => (Status.OK, w2)
    | some assets =>
      let any_assets := assets.bytes_list_value
      (Status.OK,
        { w2 with
          response := any_assets.foldl
            (fun response any_asset =>
              pack_metadata response kPreProcessingSettings (Any.StringValue ⟨any_asset⟩))
            w2.response })

def SavedModelGetSignatureDef {σ : Type} (core : ServerCore σ)
    (request : GetModelMetadataRequest) (w : Run σ) : Status × Run σ :=
  match GetServableHandle core request w with
  | (Resolved.failed code msg, w1) => (Status.Error code msg, w1)
  | (Resolved.handle bundle, w1) =>
    let signature_def_map : SignatureDefMap :=
      bundle.meta_graph_def.signature_def.entries.foldl
        (fun m signature => m.set signature.1 signature.2) ⟨ProtoMap.empty⟩
    let response := set_model_spec w1.response bundle.id
    (Status.OK,
      { w1 with
        response := pack_metadata response kSignatureDef (Any.SignatureDefMap signature_def_map) })

namespace GetModelMetadataImpl

/-- The loop of `GetModelMetadata` over the requested fields. -/
def GetModelMetadata.loop {σ : Type} (core : ServerCore σ)
    (request : GetModelMetadataRequest) : List String → Run σ → Status × Run σ
  | [], w => (Status.OK, w)
  | metadata_field :: rest, w =>
    if metadata_field = kSignatureDef then
      match SavedModelGetSignatureDef core request w with
      | (Status.OK, w1) => GetModelMetadata.loop core request rest w1
      | (Status.Error code msg, w1) => (Status.Error code msg, w1)
    else if metadata_field = kPreProcessingSettings then
      match GetModelPreProcessingSettings core request w with
      | (Status.OK, w1) => GetModelMetadata.loop core request rest w1
      | (Status.Error code msg, w1) => (Status.Error code msg, w1)
    else
      (errors.InvalidArgument ["MetadataField %s is not supported", metadata_field], w)

/-- Entry point.  `response` is the message the caller passes in, `s` the state
of the core on entry; the log of resolver invocations starts empty. -/
def GetModelMetadata {σ : Type} (core : ServerCore σ) (request : GetModelMetadataRequest)
    (response : GetModelMetadataResponse) (s : σ) : Status × Run σ :=
  match ValidateGetModelMetadataRequest request with
  | Status.Error code msg => (Status.Error code msg, ⟨response, s, []⟩)
  | Status.OK => GetModelMetadata.loop core request request.metadata_field ⟨response, s, []⟩

end GetModelMetadataImpl

open GetModelMetadataImpl

/-! ## Auxiliary definitions

Parts of the source functions named for use in statements, and sample resolvers. -/

/-- The first requested kind outside the supported enumeration, if any. -/
def firstUnsupported (fields : List String) : Option String :=
  fields.find? (fun f => decide (f ≠ kSignatureDef ∧ f ≠ kPreProcessingSettings))

/-- What SavedModelGetSignatureDef writes into the response once the handle is
resolved. -/
def signatureDefWrite (bundle : ServableHandle) (response : GetModelMetadataResponse) :
    GetModelMetadataResponse :=
  pack_metadata (set_model_spec response bundle.id) kSignatureDef
    (Any.SignatureDefMap
      (bundle.meta_graph_def.signature_def.entries.foldl
        (fun m signature => m.set signature.1 signature.2) ⟨ProtoMap.empty⟩))

/-- What GetModelPreProcessingSettings writes into the response once the handle is
resolved. -/
def preProcessingWrite (bundle : ServableHandle) (response : GetModelMetadataResponse) :
    GetModelMetadataResponse :=
  match bundle.meta_graph_def.collection_def.find "PreProcessingSettings" with
  | none => set_model_spec response bundle.id
  | some assets =>
    assets.bytes_list_value.foldl
      (fun response any_asset =>
        pack_metadata response kPreProcessingSettings (Any.StringValue ⟨any_asset⟩))
      (set_model_spec response bundle.id)

/-- The write of the extractor selected by a supported kind. -/
def extractorWrite (metadata_field : String) (bundle : ServableHandle)
    (response : GetModelMetadataResponse) : GetModelMetadataResponse :=
  if metadata_field = kSignatureDef then signatureDefWrite bundle response
  else preProcessingWrite bundle response

/-- The loop started with an empty log. -/
def run {σ : Type} (core : ServerCore σ) (request : GetModelMetadataRequest)
    (fields : List String) (response : GetModelMetadataResponse) (s : σ) : Status × Run σ :=
  GetModelMetadata.loop core request fields ⟨response, s, []⟩

/-- The status and the response computed by the dispatch loop when every resolver
invocation gives the same `answer`. -/
def dispatchWith (answer : Resolved) :
    List String → GetModelMetadataResponse → Status × GetModelMetadataResponse
  | [], response => (Status.OK, response)
  | f :: rest, response =>
    if f = kSignatureDef ∨ f = kPreProcessingSettings then
      match answer with
      | Resolved.handle bundle => dispatchWith answer rest (extractorWrite f bundle response)
      | Resolved.failed code msg => (Status.Error code msg, response)
    else (errors.InvalidArgument ["MetadataField %s is not supported", f], response)

/-- A resolver that resolves every identifier to one fixed handle and counts
its invocations in the core state. -/
def constCore (bundle : ServableHandle) : ServerCore Nat :=
  ⟨fun n _ => (Resolved.handle bundle, n + 1)⟩

/-- A resolver that knows no model. -/
def notFoundCore : ServerCore Nat :=
  ⟨fun n spec => (Resolved.failed error.Code.NOT_FOUND
    (strings.StrCat ["Servable not found for request: ", spec.name]), n + 1)⟩

/-- A handle with one signature and two preprocessing blobs. -/
def sampleHandle : ServableHandle :=
  ⟨⟨"m", 3⟩,
    ⟨⟨[("serving_default", ⟨ProtoMap.empty, ProtoMap.empty, "tensorflow/serving/predict"⟩)],
        by decide⟩,
      ⟨[("PreProcessingSettings", CollectionDef.bytes_list ["a", "b"])], by decide⟩⟩⟩

/-- A resolver whose first invocation resolves to `sampleHandle` and whose later
invocations fail. -/
def flakyCore : ServerCore Nat :=
  ⟨fun n _ =>
    (if n = 0 then Resolved.handle sampleHandle
      else Resolved.failed error.Code.UNAVAILABLE "servable unloaded", n + 1)⟩

/-- A handle whose bundle has no signature and no collection. -/
def bareHandle : ServableHandle := ⟨⟨"m", 3⟩, ⟨ProtoMap.empty, ProtoMap.empty⟩⟩

/-- The payload GetModelPreProcessingSettings leaves under preprocessing_settings for
a bundle: the wrapper of the last blob of the collection PreProcessingSettings, or
nothing when the collection is absent or holds no blob. -/
def preProcessingPayload (bundle : ServableHandle) : Option Any :=
  match bundle.meta_graph_def.collection_def.find "PreProcessingSettings" with
  | none => none
  | some assets => assets.bytes_list_value.getLast?.map (fun blob => Any.StringValue ⟨blob⟩)

/-- The entry found under key `k` after every kind of `fields` was processed against
`bundle`, starting from `response`. -/
def expectedFind (bundle : ServableHandle) (fields : List String)
    (response : GetModelMetadataResponse) (k : String) : Option Any :=
  if k = kSignatureDef ∧ kSignatureDef ∈ fields then
    some (Any.SignatureDefMap ⟨bundle.meta_graph_def.signature_def⟩)
  else if k = kPreProcessingSettings ∧ kPreProcessingSettings ∈ fields then
    match preProcessingPayload bundle with
    | some payload => some payload
    | none => response.metadata.find k
  else response.metadata.find k

/-- A handle whose collection PreProcessingSettings is present and holds no blob. -/
def emptyBlobsHandle : ServableHandle :=
  ⟨⟨"m", 3⟩,
    ⟨ProtoMap.empty,
      ⟨[("PreProcessingSettings", CollectionDef.bytes_list [])], by decide⟩⟩⟩

/-! ## Validation failures -/

theorem validate_loop_error (fields : List String) :
    ValidateGetModelMetadataRequest.loop fields = Status.OK ∨
    ∃ k, firstUnsupported fields = some k ∧
      ValidateGetModelMetadataRequest.loop fields =
        errors.InvalidArgument ["Metadata field %s is not supported", k] := by
  induction fields with
  | nil => left; rfl
  | cons f rest ih =>
    by_cases h : f ≠ kSignatureDef ∧ f ≠ kPreProcessingSettings
    · right
      exact ⟨f, by simp [firstUnsupported, List.find?, h],
        by simp [ValidateGetModelMetadataRequest.loop, h]⟩
    · have e1 : ValidateGetModelMetadataRequest.loop (f :: rest) =
          ValidateGetModelMetadataRequest.loop rest := by
        simp only [ValidateGetModelMetadataRequest.loop]
        rw [if_neg h]
      have e2 : firstUnsupported (f :: rest) = firstUnsupported rest := by
        simp only [firstUnsupported, List.find?]
        have : decide (f ≠ kSignatureDef ∧ f ≠ kPreProcessingSettings) = false := by
          simpa using h
        rw [this]
      rw [e1, e2]
      exact ih

theorem validate_loop_ok_iff (fields : List String) :
    ValidateGetModelMetadataRequest.loop fields = Status.OK ↔
      ∀ f ∈ fields, f = kSignatureDef ∨ f = kPreProcessingSettings := by
  induction fields with
  | nil => simp [ValidateGetModelMetadataRequest.loop]
  | cons f rest ih =>
    by_cases h : f ≠ kSignatureDef ∧ f ≠ kPreProcessingSettings
    · simp only [ValidateGetModelMetadataRequest.loop, if_pos h, errors.InvalidArgument,
        List.mem_cons, forall_eq_or_imp]
      constructor
      · intro hf
        cases hf
      · rintro ⟨hf | hf, _⟩
        · exact absurd hf h.1
        · exact absurd hf h.2
    · simp only [ValidateGetModelMetadataRequest.loop, if_neg h, ih, List.mem_cons,
        forall_eq_or_imp]
      constructor
      · intro hr
        refine ⟨?_, hr⟩
        by_contra hc
        exact h ⟨fun e => hc (Or.inl e), fun e => hc (Or.inr e)⟩
      · exact fun hr => hr.2

theorem validate_code (request : GetModelMetadataRequest) :
    ValidateGetModelMetadataRequest request = Status.OK ∨
    (ValidateGetModelMetadataRequest request).code = some error.Code.INVALID_ARGUMENT := by
  unfold ValidateGetModelMetadataRequest
  split
  · right; rfl
  · split
    · right; rfl
    · rcases validate_loop_error request.metadata_field with h | ⟨k, _, h⟩
      · left; exact h
      · right; rw [h]; rfl

theorem getModelMetadata_of_validate_error {σ : Type} (core : ServerCore σ)
    (request : GetModelMetadataRequest) (response : GetModelMetadataResponse) (s : σ)
    (code : error.Code) (msg : String)
    (h : ValidateGetModelMetadataRequest request = Status.Error code msg) :
    GetModelMetadata core request response s = (Status.Error code msg, ⟨response, s, []⟩) := by
  unfold GetModelMetadata
  rw [h]

theorem validate_unsupported (request : GetModelMetadataRequest)
    (hm : request.has_model_spec = true)
    (hu : ∃ f ∈ request.metadata_field, f ≠ kSignatureDef ∧ f ≠ kPreProcessingSettings) :
    ∃ k, firstUnsupported request.metadata_field = some k ∧
      ValidateGetModelMetadataRequest request =
        errors.InvalidArgument ["Metadata field %s is not supported", k] := by
  obtain ⟨f, hf, hne⟩ := hu
  have hsize : request.metadata_field_size ≠ 0 := by
    unfold GetModelMetadataRequest.metadata_field_size
    intro h0
    rw [List.length_eq_zero] at h0
    rw [h0] at hf
    cases hf
  have hv : ValidateGetModelMetadataRequest request =
      ValidateGetModelMetadataRequest.loop request.metadata_field := by
    unfold ValidateGetModelMetadataRequest
    simp [hm, hsize]
  rcases validate_loop_error request.metadata_field with h | ⟨k, hk, h⟩
  · rcases (validate_loop_ok_iff _).1 h f hf with e | e
    · exact absurd e hne.1
    · exact absurd e hne.2
  · exact ⟨k, hk, hv.trans h⟩

theorem strCat_pair_data (a b : String) : (strings.StrCat [a, b]).data = a.data ++ b.data := by
  simp [strings.StrCat, String.join]

/-! ## Maps: lookup after assignment -/

theorem findEntry_setEntry_same {V : Type} (k : String) (v : V) (l : List (String × V)) :
    ProtoMap.findEntry k (ProtoMap.setEntry k v l) = some v := by
  induction l with
  | nil => simp [ProtoMap.setEntry, ProtoMap.findEntry]
  | cons hd tl ih =>
    obtain ⟨k', v'⟩ := hd
    by_cases h : k' = k
    · simp [ProtoMap.setEntry, ProtoMap.findEntry, h]
    · simp [ProtoMap.setEntry, ProtoMap.findEntry, h, ih]

theorem findEntry_setEntry_ne {V : Type} (k k0 : String) (v : V) (l : List (String × V))
    (hne : k0 ≠ k) :
    ProtoMap.findEntry k (ProtoMap.setEntry k0 v l) = ProtoMap.findEntry k l := by
  induction l with
  | nil => simp [ProtoMap.setEntry, ProtoMap.findEntry, hne]
  | cons hd tl ih =>
    obtain ⟨k', v'⟩ := hd
    by_cases h : k' = k0
    · subst h
      simp [ProtoMap.setEntry, ProtoMap.findEntry, hne]
    · by_cases h2 : k' = k
      · subst h2
        simp [ProtoMap.setEntry, ProtoMap.findEntry, h]
      · simp [ProtoMap.setEntry, ProtoMap.findEntry, h, h2, ih]

theorem find_set_same {V : Type} (m : ProtoMap V) (k : String) (v : V) :
    (m.set k v).find k = some v :=
  findEntry_setEntry_same k v m.entries

theorem find_set_ne {V : Type} (m : ProtoMap V) (k k0 : String) (v : V) (hne : k0 ≠ k) :
    (m.set k0 v).find k = m.find k :=
  findEntry_setEntry_ne k k0 v m.entries hne

theorem setEntry_fresh {V : Type} (k : String) (v : V) (l : List (String × V))
    (h : k ∉ l.map Prod.fst) : ProtoMap.setEntry k v l = l ++ [(k, v)] := by
  induction l with
  | nil => rfl
  | cons hd tl ih =>
    obtain ⟨k', v'⟩ := hd
    simp only [List.map_cons, List.mem_cons, not_or] at h
    have h1 : ¬ k' = k := fun e => h.1 e.symm
    simp [ProtoMap.setEntry, h1, ih h.2]

/-- Entries left by copying the key/value list `l` one entry at a time into a
map `acc` that holds none of its keys. -/
theorem copy_entries (l : List (String × SignatureDef)) (acc : SignatureDefMap)
    (h : (acc.signature_def.entries ++ l).map Prod.fst |>.Nodup) :
    (l.foldl (fun m signature => m.set signature.1 signature.2) acc).signature_def.entries =
      acc.signature_def.entries ++ l := by
  induction l generalizing acc with
  | nil => simp
  | cons hd tl ih =>
    have hfresh : hd.1 ∉ acc.signature_def.entries.map Prod.fst := by
      intro hmem
      rw [List.map_append, List.nodup_append] at h
      exact h.2.2 hmem (by simp)
    have hset : (acc.set hd.1 hd.2).signature_def.entries =
        acc.signature_def.entries ++ [hd] := by
      show ProtoMap.setEntry hd.1 hd.2 acc.signature_def.entries = _
      rw [setEntry_fresh _ _ _ hfresh]
    rw [List.foldl_cons, ih (acc.set hd.1 hd.2) (by rw [hset]; simpa using h), hset]
    simp

theorem copy_signature_def (table : ProtoMap SignatureDef) :
    table.entries.foldl (fun (m : SignatureDefMap) signature => m.set signature.1 signature.2)
      ⟨ProtoMap.empty⟩ = ⟨table⟩ := by
  have h := copy_entries table.entries ⟨ProtoMap.empty⟩
    (by simpa [ProtoMap.empty] using table.nodup)
  have h2 : (table.entries.foldl
      (fun (m : SignatureDefMap) signature => m.set signature.1 signature.2)
      ⟨ProtoMap.empty⟩).signature_def.entries = table.entries := by
    rw [h]; simp [ProtoMap.empty]
  generalize table.entries.foldl
      (fun (m : SignatureDefMap) signature => m.set signature.1 signature.2)
      ⟨ProtoMap.empty⟩ = r at h2
  obtain ⟨⟨e, hn⟩⟩ := r
  obtain ⟨te, tn⟩ := table
  simp only at h2
  subst h2
  rfl

/-! ## One extractor step -/

theorem signatureDef_step_handle {σ : Type} (core : ServerCore σ)
    (request : GetModelMetadataRequest) (w : Run σ) (bundle : ServableHandle) (s1 : σ)
    (h : core.GetServableHandle w.state request.model_spec = (Resolved.handle bundle, s1)) :
    SavedModelGetSignatureDef core request w =
      (Status.OK, ⟨signatureDefWrite bundle w.response, s1,
        w.calls ++ [(request.model_spec, Resolved.handle bundle)]⟩) := by
  simp [SavedModelGetSignatureDef, GetServableHandle, h, signatureDefWrite]

theorem signatureDef_step_failed {σ : Type} (core : ServerCore σ)
    (request : GetModelMetadataRequest) (w : Run σ) (code : error.Code) (msg : String) (s1 : σ)
    (h : core.GetServableHandle w.state request.model_spec = (Resolved.failed code msg, s1)) :
    SavedModelGetSignatureDef core request w =
      (Status.Error code msg, ⟨w.response, s1,
        w.calls ++ [(request.model_spec, Resolved.failed code msg)]⟩) := by
  simp [SavedModelGetSignatureDef, GetServableHandle, h]

theorem preProcessing_step_handle {σ : Type} (core : ServerCore σ)
    (request : GetModelMetadataRequest) (w : Run σ) (bundle : ServableHandle) (s1 : σ)
    (h : core.GetServableHandle w.state request.model_spec = (Resolved.handle bundle, s1)) :
    GetModelPreProcessingSettings core request w =
      (Status.OK, ⟨preProcessingWrite bundle w.response, s1,
        w.calls ++ [(request.model_spec, Resolved.handle bundle)]⟩) := by
  simp only [GetModelPreProcessingSettings, GetServableHandle, h, preProcessingWrite]
  cases bundle.meta_graph_def.collection_def.find "PreProcessingSettings" <;> rfl

theorem preProcessing_step_failed {σ : Type} (core : ServerCore σ)
    (request : GetModelMetadataRequest) (w : Run σ) (code : error.Code) (msg : String) (s1 : σ)
    (h : core.GetServableHandle w.state request.model_spec = (Resolved.failed code msg, s1)) :
    GetModelPreProcessingSettings core request w =
      (Status.Error code msg, ⟨w.response, s1,
        w.calls ++ [(request.model_spec, Resolved.failed code msg)]⟩) := by
  simp [GetModelPreProcessingSettings, GetServableHandle, h]

/-- One iteration of the dispatch loop on a supported kind: the resolver is
invoked once; on a handle the selected extractor writes and the loop goes on, on a
failure the loop stops with the resolver's status and the response untouched. -/
theorem loop_cons_supported {σ : Type} (core : ServerCore σ)
    (request : GetModelMetadataRequest) (f : String) (rest : List String) (w : Run σ)
    (hf : f = kSignatureDef ∨ f = kPreProcessingSettings) :
    GetModelMetadata.loop core request (f :: rest) w =
      match core.GetServableHandle w.state request.model_spec with
      | (Resolved.handle bundle, s1) =>
        GetModelMetadata.loop core request rest
          ⟨extractorWrite f bundle w.response, s1,
            w.calls ++ [(request.model_spec, Resolved.handle bundle)]⟩
      | (Resolved.failed code msg, s1) =>
        (Status.Error code msg,
          ⟨w.response, s1, w.calls ++ [(request.model_spec, Resolved.failed code msg)]⟩) := by
  rcases hr : core.GetServableHandle w.state request.model_spec with ⟨r, s1⟩
  have hne : kPreProcessingSettings ≠ kSignatureDef := by decide
  cases r with
  | handle bundle =>
    rcases hf with hf | hf
    · subst hf
      simp only [GetModelMetadata.loop, if_true,
        signatureDef_step_handle core request w bundle s1 hr, extractorWrite]
    · subst hf
      simp only [GetModelMetadata.loop, if_neg hne, if_true,
        preProcessing_step_handle core request w bundle s1 hr, extractorWrite]
  | failed code msg =>
    rcases hf with hf | hf
    · subst hf
      simp only [GetModelMetadata.loop, if_true,
        signatureDef_step_failed core request w code msg s1 hr]
    · subst hf
      simp only [GetModelMetadata.loop, if_neg hne, if_true,
        preProcessing_step_failed core request w code msg s1 hr]

theorem loop_cons_unsupported {σ : Type} (core : ServerCore σ)
    (request : GetModelMetadataRequest) (f : String) (rest : List String) (w : Run σ)
    (h1 : f ≠ kSignatureDef) (h2 : f ≠ kPreProcessingSettings) :
    GetModelMetadata.loop core request (f :: rest) w =
      (errors.InvalidArgument ["MetadataField %s is not supported", f], w) := by
  simp only [GetModelMetadata.loop, if_neg h1, if_neg h2]

/-! ## The dispatch loop -/

theorem supported_or_not (f : String) :
    (f = kSignatureDef ∨ f = kPreProcessingSettings) ∨
    (f ≠ kSignatureDef ∧ f ≠ kPreProcessingSettings) := by
  by_cases h1 : f = kSignatureDef
  · exact Or.inl (Or.inl h1)
  · by_cases h2 : f = kPreProcessingSettings
    · exact Or.inl (Or.inr h2)
    · exact Or.inr ⟨h1, h2⟩

/-- The log only grows: the status, the response and the core state computed by the
loop do not depend on the invocations logged before it starts. -/
theorem loop_rebase {σ : Type} (core : ServerCore σ) (request : GetModelMetadataRequest)
    (fields : List String) (w : Run σ) :
    GetModelMetadata.loop core request fields w =
      ((GetModelMetadata.loop core request fields ⟨w.response, w.state, []⟩).1,
        ⟨(GetModelMetadata.loop core request fields ⟨w.response, w.state, []⟩).2.response,
          (GetModelMetadata.loop core request fields ⟨w.response, w.state, []⟩).2.state,
          w.calls ++
            (GetModelMetadata.loop core request fields ⟨w.response, w.state, []⟩).2.calls⟩) := by
  induction fields generalizing w with
  | nil => simp [GetModelMetadata.loop]
  | cons f rest ih =>
    rcases supported_or_not f with hf | ⟨h1, h2⟩
    · rw [loop_cons_supported core request f rest w hf,
        loop_cons_supported core request f rest ⟨w.response, w.state, []⟩ hf]
      rcases hr : core.GetServableHandle w.state request.model_spec with ⟨r, s1⟩
      cases r with
      | handle bundle =>
        simp only [List.nil_append]
        rw [ih ⟨extractorWrite f bundle w.response, s1,
              w.calls ++ [(request.model_spec, Resolved.handle bundle)]⟩,
          ih ⟨extractorWrite f bundle w.response, s1,
              [(request.model_spec, Resolved.handle bundle)]⟩]
        simp
      | failed code msg => simp
    · rw [loop_cons_unsupported core request f rest w h1 h2,
        loop_cons_unsupported core request f rest _ h1 h2]
      simp

theorem run_nil {σ : Type} (core : ServerCore σ) (request : GetModelMetadataRequest)
    (response : GetModelMetadataResponse) (s : σ) :
    run core request [] response s = (Status.OK, ⟨response, s, []⟩) := rfl

theorem run_cons_handle {σ : Type} (core : ServerCore σ) (request : GetModelMetadataRequest)
    (f : String) (rest : List String) (response : GetModelMetadataResponse) (s s1 : σ)
    (bundle : ServableHandle)
    (hf : f = kSignatureDef ∨ f = kPreProcessingSettings)
    (hr : core.GetServableHandle s request.model_spec = (Resolved.handle bundle, s1)) :
    run core request (f :: rest) response s =
      ((run core request rest (extractorWrite f bundle response) s1).1,
        ⟨(run core request rest (extractorWrite f bundle response) s1).2.response,
          (run core request rest (extractorWrite f bundle response) s1).2.state,
          (request.model_spec, Resolved.handle bundle) ::
            (run core request rest (extractorWrite f bundle response) s1).2.calls⟩) := by
  unfold run
  rw [loop_cons_supported core request f rest _ hf]
  simp only [hr, List.nil_append]
  rw [loop_rebase]
  simp

theorem run_cons_failed {σ : Type} (core : ServerCore σ) (request : GetModelMetadataRequest)
    (f : String) (rest : List String) (response : GetModelMetadataResponse) (s s1 : σ)
    (code : error.Code) (msg : String)
    (hf : f = kSignatureDef ∨ f = kPreProcessingSettings)
    (hr : core.GetServableHandle s request.model_spec = (Resolved.failed code msg, s1)) :
    run core request (f :: rest) response s =
      (Status.Error code msg,
        ⟨response, s1, [(request.model_spec, Resolved.failed code msg)]⟩) := by
  unfold run
  rw [loop_cons_supported core request f rest _ hf]
  simp only [hr, List.nil_append]

theorem run_cons_unsupported {σ : Type} (core : ServerCore σ)
    (request : GetModelMetadataRequest) (f : String) (rest : List String)
    (response : GetModelMetadataResponse) (s : σ)
    (h1 : f ≠ kSignatureDef) (h2 : f ≠ kPreProcessingSettings) :
    run core request (f :: rest) response s =
      (errors.InvalidArgument ["MetadataField %s is not supported", f], ⟨response, s, []⟩) :=
  loop_cons_unsupported core request f rest _ h1 h2

theorem getModelMetadata_of_validate_ok {σ : Type} (core : ServerCore σ)
    (request : GetModelMetadataRequest) (response : GetModelMetadataResponse) (s : σ)
    (h : ValidateGetModelMetadataRequest request = Status.OK) :
    GetModelMetadata core request response s =
      run core request request.metadata_field response s := by
  unfold GetModelMetadata run
  rw [h]

/-- A request that passes validation has a model identifier, at least one kind and
only supported kinds. -/
theorem validate_ok (request : GetModelMetadataRequest)
    (h : ValidateGetModelMetadataRequest request = Status.OK) :
    request.has_model_spec = true ∧ request.metadata_field ≠ [] ∧
    ∀ f ∈ request.metadata_field, f = kSignatureDef ∨ f = kPreProcessingSettings := by
  unfold ValidateGetModelMetadataRequest at h
  split at h
  · cases h
  · rename_i hm
    split at h
    · cases h
    · rename_i hs
      refine ⟨by simpa using hm, ?_, (validate_loop_ok_iff _).1 h⟩
      intro hnil
      apply hs
      simp [GetModelMetadataRequest.metadata_field_size, hnil]

/-! ## Resolver failures inside the loop -/

/-- If the invocation number `n` of the resolver fails, the loop returns that
failure, performs no further invocation, and leaves the response as the first `n`
kinds wrote it. -/
theorem run_failure_at {σ : Type} (core : ServerCore σ) (request : GetModelMetadataRequest)
    (fields : List String) (response : GetModelMetadataResponse) (s : σ) (n : Nat)
    (spec : ModelSpec) (code : error.Code) (msg : String)
    (h : (run core request fields response s).2.calls[n]? =
      some (spec, Resolved.failed code msg)) :
    (run core request fields response s).1 = Status.Error code msg ∧
    (run core request fields response s).2.calls.length = n + 1 ∧
    (run core request (fields.take n) response s).1 = Status.OK ∧
    (run core request fields response s).2.response =
      (run core request (fields.take n) response s).2.response := by
  induction fields generalizing response s n with
  | nil => simp [run_nil] at h
  | cons f rest ih =>
    rcases supported_or_not f with hf | ⟨h1, h2⟩
    · rcases hr : core.GetServableHandle s request.model_spec with ⟨r, s1⟩
      cases r with
      | handle bundle =>
        rw [run_cons_handle core request f rest response s s1 bundle hf hr] at h ⊢
        cases n with
        | zero => simp at h
        | succ n =>
          simp only [List.getElem?_cons_succ] at h
          obtain ⟨a, b, c, d⟩ := ih (extractorWrite f bundle response) s1 n h
          rw [List.take_succ_cons,
            run_cons_handle core request f (rest.take n) response s s1 bundle hf hr]
          exact ⟨a, by simp [b], c, d⟩
      | failed code1 msg1 =>
        rw [run_cons_failed core request f rest response s s1 code1 msg1 hf hr] at h ⊢
        cases n with
        | zero =>
          simp only [List.getElem?_cons_zero, Option.some.injEq, Prod.mk.injEq,
            Resolved.failed.injEq] at h
          obtain ⟨_, hc, hm⟩ := h
          subst hc; subst hm
          simp [run_nil]
        | succ n => simp at h
    · rw [run_cons_unsupported core request f rest response s h1 h2] at h
      simp at h

/-! ## The ModelSpec of a successful run -/

theorem pack_fold_model_spec (blobs : List String) (response : GetModelMetadataResponse) :
    (blobs.foldl
      (fun response any_asset =>
        pack_metadata response kPreProcessingSettings (Any.StringValue ⟨any_asset⟩))
      response).model_spec? = response.model_spec? := by
  induction blobs generalizing response with
  | nil => rfl
  | cons b rest ih => rw [List.foldl_cons, ih]; rfl

theorem extractorWrite_model_spec (f : String) (bundle : ServableHandle)
    (response : GetModelMetadataResponse) :
    (extractorWrite f bundle response).model_spec? =
      some { response.mutable_model_spec with
             name := bundle.id.name, version := some bundle.id.version } := by
  unfold extractorWrite
  split
  · rfl
  · unfold preProcessingWrite
    split
    · rfl
    · rw [pack_fold_model_spec]; rfl

/-- After a successful run over at least one kind, the last resolver invocation
returned a handle and the ModelSpec of the response carries that handle's name
and version. -/
theorem run_ok_model_spec {σ : Type} (core : ServerCore σ) (request : GetModelMetadataRequest)
    (fields : List String) (response : GetModelMetadataResponse) (s : σ)
    (hne : fields ≠ [])
    (h : (run core request fields response s).1 = Status.OK) :
    ∃ bundle spec,
      (run core request fields response s).2.calls.getLast? =
        some (request.model_spec, Resolved.handle bundle) ∧
      (run core request fields response s).2.response.model_spec? = some spec ∧
      spec.name = bundle.id.name ∧ spec.version = some bundle.id.version := by
  induction fields generalizing response s with
  | nil => exact absurd rfl hne
  | cons f rest ih =>
    rcases supported_or_not f with hf | ⟨h1, h2⟩
    · rcases hr : core.GetServableHandle s request.model_spec with ⟨r, s1⟩
      cases r with
      | handle bundle =>
        rw [run_cons_handle core request f rest response s s1 bundle hf hr] at h ⊢
        cases rest with
        | nil =>
          refine ⟨bundle, { response.mutable_model_spec with
              name := bundle.id.name, version := some bundle.id.version }, ?_, ?_, rfl, rfl⟩
          · simp [run_nil]
          · simp only [run_nil]
            exact extractorWrite_model_spec f bundle response
        | cons g rest1 =>
          obtain ⟨b, spec, hl, hs, hn, hv⟩ :=
            ih (extractorWrite f bundle response) s1 (by simp) h
          refine ⟨b, spec, ?_, hs, hn, hv⟩
          simp only
          rw [List.getLast?_cons]
          rw [hl]
          rfl
      | failed code msg =>
        rw [run_cons_failed core request f rest response s s1 code msg hf hr] at h
        cases h
    · rw [run_cons_unsupported core request f rest response s h1 h2] at h
      cases h

/-! ## Runs against a resolver with a fixed answer -/

theorem run_eq_dispatchWith {σ : Type} (core : ServerCore σ)
    (request : GetModelMetadataRequest) (answer : Resolved)
    (hfix : ∀ st, (core.GetServableHandle st request.model_spec).1 = answer)
    (fields : List String) (response : GetModelMetadataResponse) (s : σ) :
    ((run core request fields response s).1, (run core request fields response s).2.response) =
      dispatchWith answer fields response := by
  induction fields generalizing response s with
  | nil => rfl
  | cons f rest ih =>
    rcases supported_or_not f with hf | ⟨h1, h2⟩
    · rcases hr : core.GetServableHandle s request.model_spec with ⟨r, s1⟩
      have ha : r = answer := by
        have := hfix s
        rw [hr] at this
        exact this
      subst ha
      cases r with
      | handle bundle =>
        rw [run_cons_handle core request f rest response s s1 bundle hf hr]
        simp only [dispatchWith, if_pos hf]
        exact ih (extractorWrite f bundle response) s1
      | failed code msg =>
        rw [run_cons_failed core request f rest response s s1 code msg hf hr]
        simp only [dispatchWith, if_pos hf]
    · rw [run_cons_unsupported core request f rest response s h1 h2]
      have hn : ¬ (f = kSignatureDef ∨ f = kPreProcessingSettings) := by
        rintro (e | e)
        · exact h1 e
        · exact h2 e
      simp only [dispatchWith, if_neg hn]

theorem dispatchWith_handle_ok (bundle : ServableHandle) (fields : List String)
    (response : GetModelMetadataResponse)
    (hs : ∀ f ∈ fields, f = kSignatureDef ∨ f = kPreProcessingSettings) :
    (dispatchWith (Resolved.handle bundle) fields response).1 = Status.OK := by
  induction fields generalizing response with
  | nil => rfl
  | cons f rest ih =>
    have hf := hs f (List.mem_cons_self f rest)
    simp only [dispatchWith, if_pos hf]
    exact ih _ (fun g hg => hs g (List.mem_cons_of_mem f hg))

theorem pack_fold_find_ne (blobs : List String) (response : GetModelMetadataResponse)
    (k : String) (hk : kPreProcessingSettings ≠ k) :
    (blobs.foldl
      (fun response any_asset =>
        pack_metadata response kPreProcessingSettings (Any.StringValue ⟨any_asset⟩))
      response).metadata.find k = response.metadata.find k := by
  induction blobs generalizing response with
  | nil => rfl
  | cons b rest ih =>
    rw [List.foldl_cons, ih]
    exact find_set_ne _ _ _ _ hk

theorem preProcessingWrite_find_ne (bundle : ServableHandle)
    (response : GetModelMetadataResponse) (k : String) (hk : kPreProcessingSettings ≠ k) :
    (preProcessingWrite bundle response).metadata.find k = response.metadata.find k := by
  unfold preProcessingWrite
  split
  · rfl
  · rw [pack_fold_find_ne _ _ _ hk]; rfl

theorem signatureDefWrite_find (bundle : ServableHandle)
    (response : GetModelMetadataResponse) :
    (signatureDefWrite bundle response).metadata.find kSignatureDef =
      some (Any.SignatureDefMap ⟨bundle.meta_graph_def.signature_def⟩) := by
  unfold signatureDefWrite
  rw [copy_signature_def]
  exact find_set_same _ _ _

theorem dispatchWith_handle_signature_def (bundle : ServableHandle) (fields : List String)
    (response : GetModelMetadataResponse)
    (hs : ∀ f ∈ fields, f = kSignatureDef ∨ f = kPreProcessingSettings)
    (h : kSignatureDef ∈ fields ∨ response.metadata.find kSignatureDef =
      some (Any.SignatureDefMap ⟨bundle.meta_graph_def.signature_def⟩)) :
    (dispatchWith (Resolved.handle bundle) fields response).2.metadata.find kSignatureDef =
      some (Any.SignatureDefMap ⟨bundle.meta_graph_def.signature_def⟩) := by
  induction fields generalizing response with
  | nil =>
    rcases h with h | h
    · cases h
    · exact h
  | cons f rest ih =>
    have hf := hs f (List.mem_cons_self f rest)
    simp only [dispatchWith, if_pos hf]
    apply ih _ (fun g hg => hs g (List.mem_cons_of_mem f hg))
    by_cases hfs : f = kSignatureDef
    · right
      rw [extractorWrite, if_pos hfs]
      exact signatureDefWrite_find bundle response
    · rcases h with h | h
      · rcases List.mem_cons.1 h with e | e
        · exact absurd e.symm hfs
        · exact Or.inl e
      · right
        rw [extractorWrite, if_neg hfs, preProcessingWrite_find_ne _ _ _ (by decide)]
        exact h

theorem set_model_spec_idem (response : GetModelMetadataResponse) (id : ServableId) :
    set_model_spec (set_model_spec response id) id = set_model_spec response id := rfl

theorem dispatchWith_handle_no_settings (bundle : ServableHandle)
    (hno : bundle.meta_graph_def.collection_def.find "PreProcessingSettings" = none)
    (rest : List String) (response : GetModelMetadataResponse)
    (hs : ∀ f ∈ rest, f = kPreProcessingSettings) :
    dispatchWith (Resolved.handle bundle) (kPreProcessingSettings :: rest) response =
      (Status.OK, set_model_spec response bundle.id) := by
  have hw : ∀ r, extractorWrite kPreProcessingSettings bundle r = set_model_spec r bundle.id := by
    intro r
    have hne : kPreProcessingSettings ≠ kSignatureDef := by decide
    rw [extractorWrite, if_neg hne, preProcessingWrite, hno]
  induction rest generalizing response with
  | nil => simp only [dispatchWith, true_or, or_true, if_true, hw]
  | cons g rest1 ih =>
    have hg := hs g (List.mem_cons_self g rest1)
    subst hg
    have step : dispatchWith (Resolved.handle bundle)
        (kPreProcessingSettings :: kPreProcessingSettings :: rest1) response =
        dispatchWith (Resolved.handle bundle) (kPreProcessingSettings :: rest1)
          (extractorWrite kPreProcessingSettings bundle response) := by
      conv_lhs => rw [dispatchWith]
      simp
    rw [step, hw, ih _ (fun g hg => hs g (List.mem_cons_of_mem _ hg)), set_model_spec_idem]

/-! ## The validator's rule for unsupported kinds -/

theorem validate_loop_first_unsupported (front back : List String) (k : String)
    (hfront : ∀ f ∈ front, f = kSignatureDef ∨ f = kPreProcessingSettings)
    (h1 : k ≠ kSignatureDef) (h2 : k ≠ kPreProcessingSettings) :
    ValidateGetModelMetadataRequest.loop (front ++ k :: back) =
      errors.InvalidArgument ["Metadata field %s is not supported", k] := by
  induction front with
  | nil => simp [ValidateGetModelMetadataRequest.loop, h1, h2]
  | cons f rest ih =>
    have hf := hfront f (List.mem_cons_self f rest)
    have hn : ¬ (f ≠ kSignatureDef ∧ f ≠ kPreProcessingSettings) := by
      rintro ⟨a, b⟩
      rcases hf with e | e
      · exact a e
      · exact b e
    rw [List.cons_append, ValidateGetModelMetadataRequest.loop, if_neg hn]
    exact ih (fun g hg => hfront g (List.mem_cons_of_mem f hg))

theorem validate_eq_loop (request : GetModelMetadataRequest)
    (hm : request.has_model_spec = true) (hne : request.metadata_field ≠ []) :
    ValidateGetModelMetadataRequest request =
      ValidateGetModelMetadataRequest.loop request.metadata_field := by
  have hsize : request.metadata_field_size ≠ 0 := by
    unfold GetModelMetadataRequest.metadata_field_size
    intro h0
    exact hne (List.length_eq_zero.1 h0)
  unfold ValidateGetModelMetadataRequest
  simp [hm, hsize]

/-! ## Repeated assignment to one key -/

theorem setEntry_setEntry {V : Type} (k : String) (v1 v2 : V) (l : List (String × V)) :
    ProtoMap.setEntry k v2 (ProtoMap.setEntry k v1 l) = ProtoMap.setEntry k v2 l := by
  induction l with
  | nil => simp [ProtoMap.setEntry]
  | cons hd tl ih =>
    obtain ⟨k', v'⟩ := hd
    by_cases h : k' = k
    · simp [ProtoMap.setEntry, h]
    · simp [ProtoMap.setEntry, h, ih]

theorem protoMap_ext {V : Type} (m1 m2 : ProtoMap V) (h : m1.entries = m2.entries) :
    m1 = m2 := by
  obtain ⟨e1, n1⟩ := m1
  obtain ⟨e2, n2⟩ := m2
  simp only at h
  subst h
  rfl

theorem pack_pack (response : GetModelMetadataResponse) (k : String) (a b : Any) :
    pack_metadata (pack_metadata response k a) k b = pack_metadata response k b := by
  unfold pack_metadata
  simp only [GetModelMetadataResponse.mk.injEq, true_and]
  exact protoMap_ext _ _ (setEntry_setEntry k a b response.metadata.entries)

/-- Last write wins: packing the blobs one after the other leaves what packing the last
one alone leaves. -/
theorem pack_fold_last (blobs : List String) (response : GetModelMetadataResponse) :
    blobs.foldl
      (fun response any_asset =>
        pack_metadata response kPreProcessingSettings (Any.StringValue ⟨any_asset⟩))
      response =
      match blobs.getLast? with
      | none => response
      | some blob => pack_metadata response kPreProcessingSettings (Any.StringValue ⟨blob⟩) := by
  induction blobs generalizing response with
  | nil => rfl
  | cons b rest ih =>
    rw [List.foldl_cons, ih]
    cases rest with
    | nil => rfl
    | cons c rest1 =>
      have h : (b :: c :: rest1).getLast? = (c :: rest1).getLast? := by
        simp [List.getLast?_cons_cons]
      rw [h]
      cases hl : (c :: rest1).getLast? with
      | none => simp at hl
      | some d => exact pack_pack _ _ _ _

theorem preProcessingWrite_eq (bundle : ServableHandle) (response : GetModelMetadataResponse) :
    preProcessingWrite bundle response =
      match preProcessingPayload bundle with
      | none => set_model_spec response bundle.id
      | some payload =>
        pack_metadata (set_model_spec response bundle.id) kPreProcessingSettings payload := by
  unfold preProcessingWrite preProcessingPayload
  cases bundle.meta_graph_def.collection_def.find "PreProcessingSettings" with
  | none => rfl
  | some assets =>
    simp only
    rw [pack_fold_last]
    cases assets.bytes_list_value.getLast? <;> rfl

theorem preProcessingWrite_find (bundle : ServableHandle)
    (response : GetModelMetadataResponse) :
    (preProcessingWrite bundle response).metadata.find kPreProcessingSettings =
      match preProcessingPayload bundle with
      | some payload => some payload
      | none => response.metadata.find kPreProcessingSettings := by
  rw [preProcessingWrite_eq]
  cases preProcessingPayload bundle with
  | none => rfl
  | some payload => exact find_set_same _ _ _

theorem signatureDefWrite_find_ne (bundle : ServableHandle)
    (response : GetModelMetadataResponse) (k : String) (hk : kSignatureDef ≠ k) :
    (signatureDefWrite bundle response).metadata.find k = response.metadata.find k := by
  unfold signatureDefWrite
  exact find_set_ne _ _ _ _ hk

/-! ## What a run against one bundle leaves in the response -/

theorem expectedFind_step (bundle : ServableHandle) (f : String) (rest : List String)
    (response : GetModelMetadataResponse) (k : String)
    (hf : f = kSignatureDef ∨ f = kPreProcessingSettings) :
    expectedFind bundle rest (extractorWrite f bundle response) k =
      expectedFind bundle (f :: rest) response k := by
  have hne : kPreProcessingSettings ≠ kSignatureDef := by decide
  have hne2 : kSignatureDef ≠ kPreProcessingSettings := by decide
  rcases hf with hf | hf
  · subst hf
    rw [extractorWrite, if_pos rfl]
    by_cases hk : k = kSignatureDef
    · subst hk
      simp [expectedFind, signatureDefWrite_find, hne2]
    · have hk2 : kSignatureDef ≠ k := fun e => hk e.symm
      simp [expectedFind, hk, signatureDefWrite_find_ne bundle response k hk2, hne]
  · subst hf
    rw [extractorWrite, if_neg hne]
    by_cases hk : k = kSignatureDef
    · subst hk
      simp [expectedFind, preProcessingWrite_find_ne bundle response _ hne, hne2]
    · by_cases hk3 : k = kPreProcessingSettings
      · subst hk3
        simp only [expectedFind, hne, false_and, if_false, true_and, List.mem_cons, true_or,
          if_true, preProcessingWrite_find]
        cases preProcessingPayload bundle <;> simp
      · have hk4 : kPreProcessingSettings ≠ k := fun e => hk3 e.symm
        simp [expectedFind, hk, hk3, preProcessingWrite_find_ne bundle response k hk4]

theorem dispatchWith_handle_find (bundle : ServableHandle) (fields : List String)
    (response : GetModelMetadataResponse) (k : String)
    (hs : ∀ f ∈ fields, f = kSignatureDef ∨ f = kPreProcessingSettings) :
    (dispatchWith (Resolved.handle bundle) fields response).2.metadata.find k =
      expectedFind bundle fields response k := by
  induction fields generalizing response with
  | nil => simp [dispatchWith, expectedFind]
  | cons f rest ih =>
    have hf := hs f (List.mem_cons_self f rest)
    simp only [dispatchWith, if_pos hf]
    rw [ih _ (fun g hg => hs g (List.mem_cons_of_mem f hg))]
    exact expectedFind_step bundle f rest response k hf

theorem dispatchWith_handle_model_spec (bundle : ServableHandle) (fields : List String)
    (response : GetModelMetadataResponse)
    (hs : ∀ f ∈ fields, f = kSignatureDef ∨ f = kPreProcessingSettings)
    (hne : fields ≠ []) :
    (dispatchWith (Resolved.handle bundle) fields response).2.model_spec? =
      some { response.mutable_model_spec with
             name := bundle.id.name, version := some bundle.id.version } := by
  induction fields generalizing response with
  | nil => exact absurd rfl hne
  | cons f rest ih =>
    have hf := hs f (List.mem_cons_self f rest)
    simp only [dispatchWith, if_pos hf]
    cases rest with
    | nil => exact extractorWrite_model_spec f bundle response
    | cons g rest1 =>
      rw [ih _ (fun g hg => hs g (List.mem_cons_of_mem f hg)) (by simp)]
      rw [GetModelMetadataResponse.mutable_model_spec, extractorWrite_model_spec]
      rfl

theorem dispatchWith_failed (code : error.Code) (msg : String) (fields : List String)
    (response : GetModelMetadataResponse)
    (hs : ∀ f ∈ fields, f = kSignatureDef ∨ f = kPreProcessingSettings)
    (hne : fields ≠ []) :
    dispatchWith (Resolved.failed code msg) fields response =
      (Status.Error code msg, response) := by
  cases fields with
  | nil => exact absurd rfl hne
  | cons f rest =>
    have hf := hs f (List.mem_cons_self f rest)
    simp only [dispatchWith, if_pos hf]

theorem expectedFind_congr (bundle : ServableHandle) (fields1 fields2 : List String)
    (response : GetModelMetadataResponse) (k : String)
    (hmem : ∀ f, f ∈ fields1 ↔ f ∈ fields2) :
    expectedFind bundle fields1 response k = expectedFind bundle fields2 response k := by
  simp only [expectedFind, hmem]

/-- Against a resolver with a fixed answer, two non-empty lists of supported kinds
with the same members give the same status, the same ModelSpec and the same entry
under every key. -/
theorem dispatchWith_same_members (answer : Resolved) (fields1 fields2 : List String)
    (response : GetModelMetadataResponse)
    (hs1 : ∀ f ∈ fields1, f = kSignatureDef ∨ f = kPreProcessingSettings)
    (hs2 : ∀ f ∈ fields2, f = kSignatureDef ∨ f = kPreProcessingSettings)
    (hne1 : fields1 ≠ []) (hne2 : fields2 ≠ [])
    (hmem : ∀ f, f ∈ fields1 ↔ f ∈ fields2) :
    (dispatchWith answer fields1 response).1 = (dispatchWith answer fields2 response).1 ∧
    (dispatchWith answer fields1 response).2.model_spec? =
      (dispatchWith answer fields2 response).2.model_spec? ∧
    ∀ k, (dispatchWith answer fields1 response).2.metadata.find k =
      (dispatchWith answer fields2 response).2.metadata.find k := by
  cases answer with
  | failed code msg =>
    rw [dispatchWith_failed code msg fields1 response hs1 hne1,
      dispatchWith_failed code msg fields2 response hs2 hne2]
    exact ⟨rfl, rfl, fun _ => rfl⟩
  | handle bundle =>
    refine ⟨?_, ?_, ?_⟩
    · rw [dispatchWith_handle_ok bundle fields1 response hs1,
        dispatchWith_handle_ok bundle fields2 response hs2]
    · rw [dispatchWith_handle_model_spec bundle fields1 response hs1 hne1,
        dispatchWith_handle_model_spec bundle fields2 response hs2 hne2]
    · intro k
      rw [dispatchWith_handle_find bundle fields1 response k hs1,
        dispatchWith_handle_find bundle fields2 response k hs2]
      exact expectedFind_congr bundle fields1 fields2 response k hmem

/-! ## Runs against an arbitrary resolver -/

theorem findEntry_eq_none_iff {V : Type} (k : String) (l : List (String × V)) :
    ProtoMap.findEntry k l = none ↔ k ∉ l.map Prod.fst := by
  induction l with
  | nil => simp [ProtoMap.findEntry]
  | cons hd tl ih =>
    obtain ⟨k', v'⟩ := hd
    by_cases h : k' = k
    · simp [ProtoMap.findEntry, h]
    · have h' : ¬ k = k' := fun e => h e.symm
      simp only [ProtoMap.findEntry, h, if_false, ih, List.map_cons, List.mem_cons, h',
        false_or]

theorem mem_keys_iff {V : Type} (m : ProtoMap V) (k : String) :
    k ∈ m.keys ↔ m.find k ≠ none := by
  unfold ProtoMap.keys ProtoMap.find
  rw [Ne, findEntry_eq_none_iff, not_not]

theorem extractorWrite_find_ne (f : String) (bundle : ServableHandle)
    (response : GetModelMetadataResponse) (k : String)
    (hf : f = kSignatureDef ∨ f = kPreProcessingSettings) (hk : f ≠ k) :
    (extractorWrite f bundle response).metadata.find k = response.metadata.find k := by
  have hne : kPreProcessingSettings ≠ kSignatureDef := by decide
  rcases hf with hf | hf
  · subst hf
    rw [extractorWrite, if_pos rfl]
    exact signatureDefWrite_find_ne bundle response k hk
  · subst hf
    rw [extractorWrite, if_neg hne]
    exact preProcessingWrite_find_ne bundle response k hk

/-- A successful run invokes the resolver once for every requested kind. -/
theorem run_ok_calls_length {σ : Type} (core : ServerCore σ)
    (request : GetModelMetadataRequest) (fields : List String)
    (response : GetModelMetadataResponse) (s : σ)
    (h : (run core request fields response s).1 = Status.OK) :
    (run core request fields response s).2.calls.length = fields.length := by
  induction fields generalizing response s with
  | nil => rfl
  | cons f rest ih =>
    rcases supported_or_not f with hf | ⟨h1, h2⟩
    · rcases hr : core.GetServableHandle s request.model_spec with ⟨r, s1⟩
      cases r with
      | handle bundle =>
        rw [run_cons_handle core request f rest response s s1 bundle hf hr] at h ⊢
        simp only [List.length_cons]
        rw [ih (extractorWrite f bundle response) s1 h]
      | failed code msg =>
        rw [run_cons_failed core request f rest response s s1 code msg hf hr] at h
        cases h
    · rw [run_cons_unsupported core request f rest response s h1 h2] at h
      cases h

/-- Over supported kinds, an error returned by the loop is the failure of the last
resolver invocation. -/
theorem run_error_from_resolver {σ : Type} (core : ServerCore σ)
    (request : GetModelMetadataRequest) (fields : List String)
    (response : GetModelMetadataResponse) (s : σ) (code : error.Code) (msg : String)
    (hs : ∀ f ∈ fields, f = kSignatureDef ∨ f = kPreProcessingSettings)
    (h : (run core request fields response s).1 = Status.Error code msg) :
    (run core request fields response s).2.calls.getLast? =
      some (request.model_spec, Resolved.failed code msg) := by
  induction fields generalizing response s with
  | nil => rw [run_nil] at h; cases h
  | cons f rest ih =>
    have hf := hs f (List.mem_cons_self f rest)
    rcases hr : core.GetServableHandle s request.model_spec with ⟨r, s1⟩
    cases r with
    | handle bundle =>
      rw [run_cons_handle core request f rest response s s1 bundle hf hr] at h ⊢
      have hl := ih (extractorWrite f bundle response) s1
        (fun g hg => hs g (List.mem_cons_of_mem f hg)) h
      simp only
      rw [List.getLast?_cons, hl]
      rfl
    | failed code1 msg1 =>
      rw [run_cons_failed core request f rest response s s1 code1 msg1 hf hr] at h ⊢
      simp only [Status.Error.injEq] at h
      obtain ⟨hc, hm⟩ := h
      subst hc; subst hm
      rfl

/-- Frame of a successful run: an entry under a key that was not requested is left
as it was, and a signature map stands under signature_def once that kind was
requested. -/
theorem run_ok_frame {σ : Type} (core : ServerCore σ)
    (request : GetModelMetadataRequest) (fields : List String)
    (response : GetModelMetadataResponse) (s : σ)
    (h : (run core request fields response s).1 = Status.OK) :
    (∀ k, k ∉ fields →
      (run core request fields response s).2.response.metadata.find k =
        response.metadata.find k) ∧
    (kSignatureDef ∈ fields →
      ∃ m, (run core request fields response s).2.response.metadata.find kSignatureDef =
        some (Any.SignatureDefMap m)) := by
  induction fields generalizing response s with
  | nil => exact ⟨fun _ _ => rfl, fun hm => absurd hm (List.not_mem_nil _)⟩
  | cons f rest ih =>
    rcases supported_or_not f with hf | ⟨h1, h2⟩
    · rcases hr : core.GetServableHandle s request.model_spec with ⟨r, s1⟩
      cases r with
      | handle bundle =>
        rw [run_cons_handle core request f rest response s s1 bundle hf hr] at h ⊢
        obtain ⟨hframe, hsig⟩ := ih (extractorWrite f bundle response) s1 h
        refine ⟨?_, ?_⟩
        · intro k hk
          simp only [List.mem_cons, not_or] at hk
          simp only
          rw [hframe k hk.2]
          exact extractorWrite_find_ne f bundle response k hf (fun e => hk.1 e.symm)
        · intro hm
          simp only
          by_cases hrest : kSignatureDef ∈ rest
          · exact hsig hrest
          · rw [hframe kSignatureDef hrest]
            rcases List.mem_cons.1 hm with e | e
            · subst e
              rw [extractorWrite, if_pos rfl]
              exact ⟨_, signatureDefWrite_find bundle response⟩
            · exact absurd e hrest
      | failed code msg =>
        rw [run_cons_failed core request f rest response s s1 code msg hf hr] at h
        cases h
    · rw [run_cons_unsupported core request f rest response s h1 h2] at h
      cases h

/-! ## Bundles that the extractors cannot tell apart -/

theorem extractorWrite_congr (bundle1 bundle2 : ServableHandle)
    (hid : bundle1.id = bundle2.id)
    (hsig : bundle1.meta_graph_def.signature_def = bundle2.meta_graph_def.signature_def)
    (hpay : preProcessingPayload bundle1 = preProcessingPayload bundle2)
    (f : String) (response : GetModelMetadataResponse) :
    extractorWrite f bundle1 response = extractorWrite f bundle2 response := by
  unfold extractorWrite
  split
  · unfold signatureDefWrite
    rw [hid, hsig]
  · rw [preProcessingWrite_eq, preProcessingWrite_eq, hid, hpay]

theorem dispatchWith_congr (bundle1 bundle2 : ServableHandle)
    (hid : bundle1.id = bundle2.id)
    (hsig : bundle1.meta_graph_def.signature_def = bundle2.meta_graph_def.signature_def)
    (hpay : preProcessingPayload bundle1 = preProcessingPayload bundle2)
    (fields : List String) (response : GetModelMetadataResponse) :
    dispatchWith (Resolved.handle bundle1) fields response =
      dispatchWith (Resolved.handle bundle2) fields response := by
  induction fields generalizing response with
  | nil => rfl
  | cons f rest ih =>
    by_cases hf : f = kSignatureDef ∨ f = kPreProcessingSettings
    · simp only [dispatchWith, if_pos hf]
      rw [extractorWrite_congr bundle1 bundle2 hid hsig hpay, ih]
    · simp only [dispatchWith, if_neg hf]

theorem preProcessingPayload_last (bundle : ServableHandle) (assets : CollectionDef)
    (front : List String) (last : String)
    (hfind : bundle.meta_graph_def.collection_def.find "PreProcessingSettings" = some assets)
    (hblobs : assets.bytes_list_value = front ++ [last]) :
    preProcessingPayload bundle = some (Any.StringValue ⟨last⟩) := by
  unfold preProcessingPayload
  rw [hfind]
  simp [hblobs]

theorem preProcessingPayload_no_blob (bundle : ServableHandle) (assets : CollectionDef)
    (hfind : bundle.meta_graph_def.collection_def.find "PreProcessingSettings" = some assets)
    (hblobs : assets.bytes_list_value = []) :
    preProcessingPayload bundle = none := by
  unfold preProcessingPayload
  rw [hfind]
  simp [hblobs]

theorem preProcessingPayload_absent (bundle : ServableHandle)
    (hfind : bundle.meta_graph_def.collection_def.find "PreProcessingSettings" = none) :
    preProcessingPayload bundle = none := by
  unfold preProcessingPayload
  rw [hfind]

theorem dispatchWith_handle_no_payload (bundle : ServableHandle)
    (hno : preProcessingPayload bundle = none)
    (rest : List String) (response : GetModelMetadataResponse)
    (hs : ∀ f ∈ rest, f = kPreProcessingSettings) :
    dispatchWith (Resolved.handle bundle) (kPreProcessingSettings :: rest) response =
      (Status.OK, set_model_spec response bundle.id) := by
  have hw : ∀ r, extractorWrite kPreProcessingSettings bundle r = set_model_spec r bundle.id := by
    intro r
    have hne : kPreProcessingSettings ≠ kSignatureDef := by decide
    rw [extractorWrite, if_neg hne, preProcessingWrite_eq, hno]
  induction rest generalizing response with
  | nil => simp only [dispatchWith, true_or, or_true, if_true, hw]
  | cons g rest1 ih =>
    have hg := hs g (List.mem_cons_self g rest1)
    subst hg
    have step : dispatchWith (Resolved.handle bundle)
        (kPreProcessingSettings :: kPreProcessingSettings :: rest1) response =
        dispatchWith (Resolved.handle bundle) (kPreProcessingSettings :: rest1)
          (extractorWrite kPreProcessingSettings bundle response) := by
      conv_lhs => rw [dispatchWith]
      simp
    rw [step, hw, ih _ (fun g hg => hs g (List.mem_cons_of_mem _ hg)), set_model_spec_idem]

theorem validate_of_supported (request : GetModelMetadataRequest)
    (hm : request.has_model_spec = true) (hne : request.metadata_field ≠ [])
    (hall : ∀ f ∈ request.metadata_field, f = kSignatureDef ∨ f = kPreProcessingSettings) :
    ValidateGetModelMetadataRequest request = Status.OK := by
  rw [validate_eq_loop request hm hne]
  exact (validate_loop_ok_iff _).2 hall

/-- Status and response of a validated call against a resolver whose answer for the
request's model identifier is always `answer`. -/
theorem getModelMetadata_eq_dispatchWith {σ : Type} (core : ServerCore σ)
    (request : GetModelMetadataRequest) (answer : Resolved)
    (hfix : ∀ st, (core.GetServableHandle st request.model_spec).1 = answer)
    (hv : ValidateGetModelMetadataRequest request = Status.OK)
    (response : GetModelMetadataResponse) (s : σ) :
    (GetModelMetadata core request response s).1 =
      (dispatchWith answer request.metadata_field response).1 ∧
    (GetModelMetadata core request response s).2.response =
      (dispatchWith answer request.metadata_field response).2 := by
  rw [getModelMetadata_of_validate_ok core request response s hv]
  have h := run_eq_dispatchWith core request answer hfix request.metadata_field response s
  rw [← h]
  exact ⟨rfl, rfl⟩

/-- Every logged invocation was made for the request's model identifier. -/
theorem run_calls_spec {σ : Type} (core : ServerCore σ)
    (request : GetModelMetadataRequest) (fields : List String)
    (response : GetModelMetadataResponse) (s : σ) :
    ∀ entry ∈ (run core request fields response s).2.calls,
      entry.1 = request.model_spec := by
  induction fields generalizing response s with
  | nil => intro entry he; rw [run_nil] at he; cases he
  | cons f rest ih =>
    rcases supported_or_not f with hf | ⟨h1, h2⟩
    · rcases hr : core.GetServableHandle s request.model_spec with ⟨r, s1⟩
      cases r with
      | handle bundle =>
        rw [run_cons_handle core request f rest response s s1 bundle hf hr]
        intro entry he
        rcases List.mem_cons.1 he with e | e
        · rw [e]
        · exact ih (extractorWrite f bundle response) s1 entry e
      | failed code msg =>
        rw [run_cons_failed core request f rest response s s1 code msg hf hr]
        intro entry he
        rcases List.mem_cons.1 he with e | e
        · rw [e]
        · cases e
    · rw [run_cons_unsupported core request f rest response s h1 h2]
      intro entry he
      cases he

/-! ## The first unsupported kind and its message -/

theorem exists_first_unsupported (fields : List String)
    (hu : ∃ f ∈ fields, f ≠ kSignatureDef ∧ f ≠ kPreProcessingSettings) :
    ∃ front k back, fields = front ++ k :: back ∧
      (∀ f ∈ front, f = kSignatureDef ∨ f = kPreProcessingSettings) ∧
      k ≠ kSignatureDef ∧ k ≠ kPreProcessingSettings := by
  induction fields with
  | nil =>
    obtain ⟨f, hf, _⟩ := hu
    cases hf
  | cons g rest ih =>
    rcases supported_or_not g with hg | ⟨h1, h2⟩
    · obtain ⟨f, hf, hne⟩ := hu
      have hrest : ∃ f ∈ rest, f ≠ kSignatureDef ∧ f ≠ kPreProcessingSettings := by
        rcases List.mem_cons.1 hf with e | e
        · subst e
          rcases hg with hg | hg
          · exact absurd hg hne.1
          · exact absurd hg hne.2
        · exact ⟨f, e, hne⟩
      obtain ⟨front, k, back, hsplit, hfront, hk1, hk2⟩ := ih hrest
      refine ⟨g :: front, k, back, by rw [hsplit]; rfl, ?_, hk1, hk2⟩
      intro f hf
      rcases List.mem_cons.1 hf with e | e
      · rw [e]; exact hg
      · exact hfront f e
    · exact ⟨[], g, rest, rfl, fun f hf => absurd hf (List.not_mem_nil f), h1, h2⟩

/-- The status of the validator for a request with a model identifier whose first
unsupported kind is `k`. -/
theorem validate_first_unsupported (request : GetModelMetadataRequest)
    (front back : List String) (k : String)
    (hm : request.has_model_spec = true)
    (hsplit : request.metadata_field = front ++ k :: back)
    (hfront : ∀ f ∈ front, f = kSignatureDef ∨ f = kPreProcessingSettings)
    (h1 : k ≠ kSignatureDef) (h2 : k ≠ kPreProcessingSettings) :
    ValidateGetModelMetadataRequest request =
      errors.InvalidArgument ["Metadata field %s is not supported", k] := by
  rw [validate_eq_loop request hm (by rw [hsplit]; simp), hsplit]
  exact validate_loop_first_unsupported front back k hfront h1 h2

/-- Two unsupported-kind messages that are equal were built for the same kind. -/
theorem unsupported_message_inj (k1 k2 : String)
    (h : (errors.InvalidArgument ["Metadata field %s is not supported", k1]).error_message =
      (errors.InvalidArgument ["Metadata field %s is not supported", k2]).error_message) :
    k1 = k2 := by
  have hd := congrArg String.data h
  simp only [errors.InvalidArgument, Status.error_message] at hd
  rw [strCat_pair_data, strCat_pair_data] at hd
  exact String.ext (List.append_cancel_left hd)

/-! ## Claims -/

/-- C1: a request that carries no model identifier makes GetModelMetadata fail with
error kind InvalidArgument, whatever the list of requested kinds, the resolver and
the response passed in. -/
theorem GetModelMetadata_missing_model_spec {σ : Type} (core : ServerCore σ)
    (request : GetModelMetadataRequest) (response : GetModelMetadataResponse) (s : σ)
    (h : request.has_model_spec = false) :
    (GetModelMetadata core request response s).1.code = some error.Code.INVALID_ARGUMENT := by
  unfold GetModelMetadata ValidateGetModelMetadataRequest
  simp [h, Status.code]

/-- Witness of C1: no model identifier, one supported and one unsupported kind. -/
theorem GetModelMetadata_missing_model_spec_witness :
    (⟨none, ["signature_def", "bogus"]⟩ : GetModelMetadataRequest).has_model_spec = false ∧
    (GetModelMetadata (constCore bareHandle) ⟨none, ["signature_def", "bogus"]⟩
      GetModelMetadataResponse.empty 0).1.code = some error.Code.INVALID_ARGUMENT :=
  ⟨by decide, GetModelMetadata_missing_model_spec _ _ _ _ (by decide)⟩

/-- C2: a request whose list of requested kinds is empty makes GetModelMetadata fail
with error kind InvalidArgument, whether or not a model identifier is present. -/
theorem GetModelMetadata_no_metadata_field {σ : Type} (core : ServerCore σ)
    (request : GetModelMetadataRequest) (response : GetModelMetadataResponse) (s : σ)
    (h : request.metadata_field = []) :
    (GetModelMetadata core request response s).1.code = some error.Code.INVALID_ARGUMENT := by
  have hv : (ValidateGetModelMetadataRequest request).code =
      some error.Code.INVALID_ARGUMENT := by
    unfold ValidateGetModelMetadataRequest GetModelMetadataRequest.metadata_field_size
    rw [h]
    split <;> rfl
  unfold GetModelMetadata
  cases hs : ValidateGetModelMetadataRequest request with
  | OK => rw [hs] at hv; cases hv
  | Error code msg => rw [hs] at hv; exact hv

/-- Witness of C2: a model identifier is present and no kind is requested. -/
theorem GetModelMetadata_no_metadata_field_witness :
    (⟨some ⟨"m", none, ""⟩, []⟩ : GetModelMetadataRequest).metadata_field = [] ∧
    (GetModelMetadata (constCore bareHandle) ⟨some ⟨"m", none, ""⟩, []⟩
      GetModelMetadataResponse.empty 0).1.code = some error.Code.INVALID_ARGUMENT :=
  ⟨rfl, GetModelMetadata_no_metadata_field _ _ _ _ rfl⟩

/-- C3, refuted as stated: the error message does not name every unsupported kind of
the request.  Without a model identifier the message is "Missing ModelSpec", in
which the unsupported kind bogus does not occur; with the unsupported kinds bogus
and other only the first one occurs in the message. -/
theorem GetModelMetadata_unsupported_not_always_named :
    ("bogus" ∈ (⟨none, ["bogus"]⟩ : GetModelMetadataRequest).metadata_field ∧
      "bogus" ≠ kSignatureDef ∧ "bogus" ≠ kPreProcessingSettings ∧
      (GetModelMetadata (constCore bareHandle) ⟨none, ["bogus"]⟩
        GetModelMetadataResponse.empty 0).1 =
          Status.Error error.Code.INVALID_ARGUMENT "Missing ModelSpec" ∧
      ¬ "bogus".data <:+: (GetModelMetadata (constCore bareHandle) ⟨none, ["bogus"]⟩
        GetModelMetadataResponse.empty 0).1.error_message.data) ∧
    ("other" ∈ (⟨some ⟨"m", none, ""⟩, ["bogus", "other"]⟩ :
        GetModelMetadataRequest).metadata_field ∧
      "other" ≠ kSignatureDef ∧ "other" ≠ kPreProcessingSettings ∧
      ¬ "other".data <:+: (GetModelMetadata (constCore bareHandle)
        ⟨some ⟨"m", none, ""⟩, ["bogus", "other"]⟩
        GetModelMetadataResponse.empty 0).1.error_message.data) := by
  decide

/-- C3, amended: a request that lists at least one kind outside signature_def and
preprocessing_settings makes GetModelMetadata fail with error kind InvalidArgument
without invoking the resolver and without modifying the response.  When the model
identifier is present, the error is the one built for the first unsupported kind of
the list: that kind occurs in the message, and two such requests get the same
message only if their first unsupported kinds are the same.  When the model
identifier is absent, the error is the one for the missing identifier, with message
"Missing ModelSpec" whatever the kinds. -/
theorem GetModelMetadata_unsupported_field {σ : Type} (core : ServerCore σ)
    (request : GetModelMetadataRequest) (response : GetModelMetadataResponse) (s : σ)
    (hu : ∃ f ∈ request.metadata_field, f ≠ kSignatureDef ∧ f ≠ kPreProcessingSettings) :
    (GetModelMetadata core request response s).1.code = some error.Code.INVALID_ARGUMENT ∧
    (GetModelMetadata core request response s).2.calls = [] ∧
    (GetModelMetadata core request response s).2.response = response ∧
    (GetModelMetadata core request response s).2.state = s ∧
    (request.has_model_spec = true →
      ∃ front k back, request.metadata_field = front ++ k :: back ∧
        (∀ f ∈ front, f = kSignatureDef ∨ f = kPreProcessingSettings) ∧
        k ≠ kSignatureDef ∧ k ≠ kPreProcessingSettings ∧
        k.data <:+: (GetModelMetadata core request response s).1.error_message.data ∧
        ∀ (request2 : GetModelMetadataRequest) (response2 : GetModelMetadataResponse)
          (s2 : σ) (front2 : List String) (k2 : String) (back2 : List String),
          request2.has_model_spec = true →
          request2.metadata_field = front2 ++ k2 :: back2 →
          (∀ f ∈ front2, f = kSignatureDef ∨ f = kPreProcessingSettings) →
          k2 ≠ kSignatureDef → k2 ≠ kPreProcessingSettings →
          (GetModelMetadata core request2 response2 s2).1.error_message =
            (GetModelMetadata core request response s).1.error_message →
          k2 = k) ∧
    (request.has_model_spec = false →
      (GetModelMetadata core request response s).1 =
        Status.Error error.Code.INVALID_ARGUMENT "Missing ModelSpec") := by
  cases hm : request.has_model_spec with
  | false =>
    have hv : ValidateGetModelMetadataRequest request =
        Status.Error error.Code.INVALID_ARGUMENT "Missing ModelSpec" := by
      unfold ValidateGetModelMetadataRequest
      simp [hm]
    rw [getModelMetadata_of_validate_error core request response s _ _ hv]
    exact ⟨rfl, rfl, rfl, rfl, fun h => absurd h (by simp), fun _ => rfl⟩
  | true =>
    obtain ⟨front, k, back, hsplit, hfront, h1, h2⟩ :=
      exists_first_unsupported request.metadata_field hu
    have hv := validate_first_unsupported request front back k hm hsplit hfront h1 h2
    rw [getModelMetadata_of_validate_error core request response s _ _ hv]
    refine ⟨rfl, rfl, rfl, rfl, fun _ => ⟨front, k, back, hsplit, hfront, h1, h2, ?_, ?_⟩,
      fun h => absurd h (by simp)⟩
    · show k.data <:+: (strings.StrCat ["Metadata field %s is not supported", k]).data
      rw [strCat_pair_data]
      exact (List.suffix_append _ _).isInfix
    · intro request2 response2 s2 front2 k2 back2 hm2 hsplit2 hfront2 g1 g2 hmsg
      have hv2 := validate_first_unsupported request2 front2 back2 k2 hm2 hsplit2 hfront2 g1 g2
      rw [getModelMetadata_of_validate_error core request2 response2 s2 _ _ hv2] at hmsg
      exact unsupported_message_inj k2 k hmsg

/-- Witness of C3 amended: a supported kind followed by two unsupported ones, with
and without a model identifier. -/
theorem GetModelMetadata_unsupported_field_witness :
    (∃ f ∈ (⟨some ⟨"m", none, ""⟩, ["signature_def", "bogus", "other"]⟩ :
        GetModelMetadataRequest).metadata_field,
      f ≠ kSignatureDef ∧ f ≠ kPreProcessingSettings) ∧
    (GetModelMetadata (constCore bareHandle)
        ⟨some ⟨"m", none, ""⟩, ["signature_def", "bogus", "other"]⟩
        GetModelMetadataResponse.empty 0).2.calls = [] ∧
    (GetModelMetadata (constCore bareHandle)
        ⟨none, ["signature_def", "bogus", "other"]⟩
        GetModelMetadataResponse.empty 0).1 =
      Status.Error error.Code.INVALID_ARGUMENT "Missing ModelSpec" :=
  ⟨⟨"bogus", by decide, by decide⟩,
    (GetModelMetadata_unsupported_field (constCore bareHandle)
      ⟨some ⟨"m", none, ""⟩, ["signature_def", "bogus", "other"]⟩
      GetModelMetadataResponse.empty 0 ⟨"bogus", by decide, by decide⟩).2.1,
    (GetModelMetadata_unsupported_field (constCore bareHandle)
      ⟨none, ["signature_def", "bogus", "other"]⟩
      GetModelMetadataResponse.empty 0 ⟨"bogus", by decide, by decide⟩).2.2.2.2.2 (by decide)⟩

/-- C4: when ValidateGetModelMetadataRequest returns an error, GetModelMetadata returns
that very error (same kind, same message), the resolver is not invoked and the
response is left exactly as it was passed in. -/
theorem GetModelMetadata_propagates_validation_error {σ : Type} (core : ServerCore σ)
    (request : GetModelMetadataRequest) (response : GetModelMetadataResponse) (s : σ)
    (code : error.Code) (msg : String)
    (h : ValidateGetModelMetadataRequest request = Status.Error code msg) :
    (GetModelMetadata core request response s).1 = Status.Error code msg ∧
    (GetModelMetadata core request response s).2.calls = [] ∧
    (GetModelMetadata core request response s).2.state = s ∧
    (GetModelMetadata core request response s).2.response = response := by
  rw [getModelMetadata_of_validate_error core request response s code msg h]
  exact ⟨rfl, rfl, rfl, rfl⟩

/-- Witness of C4: an empty kind list, with a response that already holds an entry. -/
theorem GetModelMetadata_propagates_validation_error_witness :
    ValidateGetModelMetadataRequest ⟨some ⟨"m", some 1, ""⟩, []⟩ =
      Status.Error error.Code.INVALID_ARGUMENT
        "GetModelMetadataRequest must specify at least one metadata_field" ∧
    (GetModelMetadata notFoundCore ⟨some ⟨"m", some 1, ""⟩, []⟩
      ⟨some ⟨"old", some 7, ""⟩, ProtoMap.empty.set "k" (Any.StringValue ⟨"v"⟩)⟩ 0).2.response =
      ⟨some ⟨"old", some 7, ""⟩, ProtoMap.empty.set "k" (Any.StringValue ⟨"v"⟩)⟩ :=
  ⟨by decide,
    (GetModelMetadata_propagates_validation_error notFoundCore
      ⟨some ⟨"m", some 1, ""⟩, []⟩
      ⟨some ⟨"old", some 7, ""⟩, ProtoMap.empty.set "k" (Any.StringValue ⟨"v"⟩)⟩ 0
      error.Code.INVALID_ARGUMENT
      "GetModelMetadataRequest must specify at least one metadata_field" (by decide)).2.2.2⟩

/-- C5: for a request that passes validation and lists signature_def, against a
resolver that resolves the model to a bundle, GetModelMetadata succeeds and the
entry under key signature_def is a signature map with the same keys as the bundle's
signature table and the same descriptor under every signature name. -/
theorem GetModelMetadata_signature_def {σ : Type} (core : ServerCore σ)
    (request : GetModelMetadataRequest) (response : GetModelMetadataResponse) (s : σ)
    (bundle : ServableHandle)
    (hv : ValidateGetModelMetadataRequest request = Status.OK)
    (hsig : kSignatureDef ∈ request.metadata_field)
    (hres : ∀ st, (core.GetServableHandle st request.model_spec).1 = Resolved.handle bundle) :
    (GetModelMetadata core request response s).1 = Status.OK ∧
    ∃ m : SignatureDefMap,
      (GetModelMetadata core request response s).2.response.metadata.find kSignatureDef =
        some (Any.SignatureDefMap m) ∧
      (∀ name, name ∈ m.signature_def.keys ↔
        name ∈ bundle.meta_graph_def.signature_def.keys) ∧
      (∀ name, m.signature_def.find name = bundle.meta_graph_def.signature_def.find name) := by
  have hsup := (validate_ok request hv).2.2
  have hd := run_eq_dispatchWith core request (Resolved.handle bundle) hres
    request.metadata_field response s
  rw [getModelMetadata_of_validate_ok core request response s hv]
  have h1 := congrArg Prod.fst hd
  have h2 := congrArg Prod.snd hd
  simp only at h1 h2
  refine ⟨?_, ⟨bundle.meta_graph_def.signature_def⟩, ?_, fun _ => Iff.rfl, fun _ => rfl⟩
  · rw [h1]
    exact dispatchWith_handle_ok bundle _ response hsup
  · rw [h2]
    exact dispatchWith_handle_signature_def bundle _ response hsup (Or.inl hsig)

/-- Witness of C5: both kinds requested against a bundle with one signature. -/
theorem GetModelMetadata_signature_def_witness :
    ValidateGetModelMetadataRequest
      ⟨some ⟨"m", none, ""⟩, ["preprocessing_settings", "signature_def"]⟩ = Status.OK ∧
    (GetModelMetadata (constCore sampleHandle)
      ⟨some ⟨"m", none, ""⟩, ["preprocessing_settings", "signature_def"]⟩
      GetModelMetadataResponse.empty 0).1 = Status.OK :=
  ⟨by decide,
    (GetModelMetadata_signature_def (constCore sampleHandle)
      ⟨some ⟨"m", none, ""⟩, ["preprocessing_settings", "signature_def"]⟩
      GetModelMetadataResponse.empty 0 sampleHandle (by decide) (by decide)
      (fun _ => rfl)).1⟩

/-- C6: whenever GetModelMetadata succeeds, the last resolver invocation returned a
handle, and the name and version in the response's ModelSpec are the name and the
concrete version of that handle, whatever name and version selector the request
carries. -/
theorem GetModelMetadata_model_spec_resolved {σ : Type} (core : ServerCore σ)
    (request : GetModelMetadataRequest) (response : GetModelMetadataResponse) (s : σ)
    (h : (GetModelMetadata core request response s).1 = Status.OK) :
    ∃ bundle spec,
      (GetModelMetadata core request response s).2.calls.getLast? =
        some (request.model_spec, Resolved.handle bundle) ∧
      (GetModelMetadata core request response s).2.response.model_spec? = some spec ∧
      spec.name = bundle.id.name ∧ spec.version = some bundle.id.version := by
  cases hv : ValidateGetModelMetadataRequest request with
  | Error code msg =>
    rw [getModelMetadata_of_validate_error core request response s code msg hv] at h
    cases h
  | OK =>
    rw [getModelMetadata_of_validate_ok core request response s hv] at h ⊢
    exact run_ok_model_spec core request _ response s (validate_ok request hv).2.1 h

/-- Witness of C6: preprocessing_settings alone, no version selector in the request,
a bundle without settings; the response reports version 3 of the resolved handle. -/
theorem GetModelMetadata_model_spec_resolved_witness :
    (GetModelMetadata (constCore bareHandle)
      ⟨some ⟨"alias", none, ""⟩, ["preprocessing_settings"]⟩
      GetModelMetadataResponse.empty 0).1 = Status.OK ∧
    ∃ bundle spec,
      (GetModelMetadata (constCore bareHandle)
        ⟨some ⟨"alias", none, ""⟩, ["preprocessing_settings"]⟩
        GetModelMetadataResponse.empty 0).2.calls.getLast? =
        some ((⟨some ⟨"alias", none, ""⟩, ["preprocessing_settings"]⟩ :
          GetModelMetadataRequest).model_spec, Resolved.handle bundle) ∧
      (GetModelMetadata (constCore bareHandle)
        ⟨some ⟨"alias", none, ""⟩, ["preprocessing_settings"]⟩
        GetModelMetadataResponse.empty 0).2.response.model_spec? = some spec ∧
      spec.name = bundle.id.name ∧ spec.version = some bundle.id.version :=
  ⟨by decide,
    GetModelMetadata_model_spec_resolved (constCore bareHandle)
      ⟨some ⟨"alias", none, ""⟩, ["preprocessing_settings"]⟩
      GetModelMetadataResponse.empty 0 (by decide)⟩

/-- C7: a request whose only requested kind is preprocessing_settings, issued with an
empty response against a model that resolves to a bundle without the collection
PreProcessingSettings, succeeds; the response's ModelSpec holds the name and version
of the resolved handle and the metadata map has no preprocessing_settings entry. -/
theorem GetModelMetadata_no_preprocessing_settings {σ : Type} (core : ServerCore σ)
    (request : GetModelMetadataRequest) (s : σ) (bundle : ServableHandle)
    (hm : request.has_model_spec = true)
    (hne : request.metadata_field ≠ [])
    (hall : ∀ f ∈ request.metadata_field, f = kPreProcessingSettings)
    (hres : ∀ st, (core.GetServableHandle st request.model_spec).1 = Resolved.handle bundle)
    (hno : bundle.meta_graph_def.collection_def.find "PreProcessingSettings" = none) :
    (GetModelMetadata core request GetModelMetadataResponse.empty s).1 = Status.OK ∧
    (GetModelMetadata core request GetModelMetadataResponse.empty s).2.response.model_spec? =
      some ⟨bundle.id.name, some bundle.id.version, ""⟩ ∧
    (GetModelMetadata core request
      GetModelMetadataResponse.empty s).2.response.metadata.find kPreProcessingSettings = none ∧
    (GetModelMetadata core request
      GetModelMetadataResponse.empty s).2.response.metadata = ProtoMap.empty := by
  have hv : ValidateGetModelMetadataRequest request = Status.OK := by
    unfold ValidateGetModelMetadataRequest
    have hsize : request.metadata_field_size ≠ 0 := by
      unfold GetModelMetadataRequest.metadata_field_size
      intro h0
      exact hne (List.length_eq_zero.1 h0)
    simp only [hm, hsize, Bool.not_true, if_false, Bool.false_eq_true]
    exact (validate_loop_ok_iff _).2 (fun f hf => Or.inr (hall f hf))
  have hd := run_eq_dispatchWith core request (Resolved.handle bundle) hres
    request.metadata_field GetModelMetadataResponse.empty s
  rw [getModelMetadata_of_validate_ok core request _ s hv]
  cases hfl : request.metadata_field with
  | nil => exact absurd hfl hne
  | cons f rest =>
    rw [hfl] at hd hall
    have hf := hall f (List.mem_cons_self f rest)
    subst hf
    rw [dispatchWith_handle_no_settings bundle hno rest _
      (fun g hg => hall g (List.mem_cons_of_mem _ hg))] at hd
    have h1 := congrArg Prod.fst hd
    have h2 := congrArg Prod.snd hd
    simp only at h1 h2
    rw [h1, h2]
    exact ⟨rfl, rfl, rfl, rfl⟩

/-- Witness of C7: one preprocessing_settings kind against a bundle with no collection. -/
theorem GetModelMetadata_no_preprocessing_settings_witness :
    (⟨some ⟨"m", none, ""⟩, ["preprocessing_settings"]⟩ :
      GetModelMetadataRequest).has_model_spec = true ∧
    bareHandle.meta_graph_def.collection_def.find "PreProcessingSettings" = none ∧
    (GetModelMetadata (constCore bareHandle) ⟨some ⟨"m", none, ""⟩, ["preprocessing_settings"]⟩
      GetModelMetadataResponse.empty 0).2.response.model_spec? = some ⟨"m", some 3, ""⟩ :=
  ⟨by decide, by decide,
    (GetModelMetadata_no_preprocessing_settings (constCore bareHandle)
      ⟨some ⟨"m", none, ""⟩, ["preprocessing_settings"]⟩ 0 bareHandle
      (by decide) (by decide) (by decide) (fun _ => rfl) (by decide)).2.1⟩

/-- C8, refuted as stated: with a resolver whose second invocation fails, the call
returns the error after one kind was processed, and the response then holds the
signature_def entry and the ModelSpec written by that kind. -/
theorem GetModelMetadata_failure_keeps_earlier_writes :
    ValidateGetModelMetadataRequest
      ⟨some ⟨"m", none, ""⟩, ["signature_def", "preprocessing_settings"]⟩ = Status.OK ∧
    (GetModelMetadata flakyCore
      ⟨some ⟨"m", none, ""⟩, ["signature_def", "preprocessing_settings"]⟩
      GetModelMetadataResponse.empty 0).1 =
        Status.Error error.Code.UNAVAILABLE "servable unloaded" ∧
    (GetModelMetadata flakyCore
      ⟨some ⟨"m", none, ""⟩, ["signature_def", "preprocessing_settings"]⟩
      GetModelMetadataResponse.empty 0).2.response.metadata.find kSignatureDef =
        some (Any.SignatureDefMap ⟨sampleHandle.meta_graph_def.signature_def⟩) ∧
    (GetModelMetadata flakyCore
      ⟨some ⟨"m", none, ""⟩, ["signature_def", "preprocessing_settings"]⟩
      GetModelMetadataResponse.empty 0).2.response.model_spec? =
        some ⟨"m", some 3, ""⟩ := by
  decide

/-- C8, amended: for a request that passes validation, if the resolver invocation
number n (counted from 0) fails, then GetModelMetadata returns that failure, the
resolver is not invoked again, and the response is the one left by the n kinds
processed before the failure, all of which succeeded; nothing is rolled back, and
when the first invocation fails the response is the one passed in. -/
theorem GetModelMetadata_resolver_failure_aborts {σ : Type} (core : ServerCore σ)
    (request : GetModelMetadataRequest) (response : GetModelMetadataResponse) (s : σ)
    (n : Nat) (spec : ModelSpec) (code : error.Code) (msg : String)
    (hv : ValidateGetModelMetadataRequest request = Status.OK)
    (h : (GetModelMetadata core request response s).2.calls[n]? =
      some (spec, Resolved.failed code msg)) :
    (GetModelMetadata core request response s).1 = Status.Error code msg ∧
    (GetModelMetadata core request response s).2.calls.length = n + 1 ∧
    (GetModelMetadata.loop core request (request.metadata_field.take n)
      ⟨response, s, []⟩).1 = Status.OK ∧
    (GetModelMetadata core request response s).2.response =
      (GetModelMetadata.loop core request (request.metadata_field.take n)
        ⟨response, s, []⟩).2.response ∧
    (n = 0 → (GetModelMetadata core request response s).2.response = response) := by
  rw [getModelMetadata_of_validate_ok core request response s hv] at h ⊢
  obtain ⟨a, b, c, d⟩ := run_failure_at core request _ response s n spec code msg h
  refine ⟨a, b, c, d, ?_⟩
  intro h0
  subst h0
  rw [d]
  rfl

/-- Witness of C8 amended: the second invocation fails after signature_def was
processed. -/
theorem GetModelMetadata_resolver_failure_aborts_witness :
    (GetModelMetadata flakyCore
      ⟨some ⟨"m", none, ""⟩, ["signature_def", "preprocessing_settings", "signature_def"]⟩
      GetModelMetadataResponse.empty 0).2.calls[1]? =
        some (⟨"m", none, ""⟩, Resolved.failed error.Code.UNAVAILABLE "servable unloaded") ∧
    (GetModelMetadata flakyCore
      ⟨some ⟨"m", none, ""⟩, ["signature_def", "preprocessing_settings", "signature_def"]⟩
      GetModelMetadataResponse.empty 0).2.calls.length = 1 + 1 :=
  ⟨by decide,
    (GetModelMetadata_resolver_failure_aborts flakyCore
      ⟨some ⟨"m", none, ""⟩, ["signature_def", "preprocessing_settings", "signature_def"]⟩
      GetModelMetadataResponse.empty 0 1 ⟨"m", none, ""⟩ error.Code.UNAVAILABLE
      "servable unloaded" (by decide) (by decide)).2.1⟩

/-- C9: a failure of the resolver is returned as it is, same error kind and same
message: by SavedModelGetSignatureDef, by GetModelPreProcessingSettings, and, for a
request that passes validation, by GetModelMetadata for any failed invocation found
in its log. -/
theorem GetModelMetadata_resolver_error_verbatim {σ : Type} (core : ServerCore σ)
    (request : GetModelMetadataRequest) (response : GetModelMetadataResponse) (s : σ)
    (code : error.Code) (msg : String)
    (hv : ValidateGetModelMetadataRequest request = Status.OK) :
    (∀ w : Run σ, (core.GetServableHandle w.state request.model_spec).1 =
        Resolved.failed code msg →
      (SavedModelGetSignatureDef core request w).1 = Status.Error code msg ∧
      (GetModelPreProcessingSettings core request w).1 = Status.Error code msg) ∧
    (∀ spec, (spec, Resolved.failed code msg) ∈
        (GetModelMetadata core request response s).2.calls →
      (GetModelMetadata core request response s).1 = Status.Error code msg) ∧
    ((core.GetServableHandle s request.model_spec).1 = Resolved.failed code msg →
      (GetModelMetadata core request response s).1 = Status.Error code msg) := by
  refine ⟨?_, ?_, ?_⟩
  · intro w hw
    rcases hr : core.GetServableHandle w.state request.model_spec with ⟨r, s1⟩
    rw [hr] at hw
    simp only at hw
    subst hw
    rw [signatureDef_step_failed core request w code msg s1 hr,
      preProcessing_step_failed core request w code msg s1 hr]
    exact ⟨rfl, rfl⟩
  · intro spec hmem
    obtain ⟨n, hn⟩ := List.getElem?_of_mem hmem
    rw [getModelMetadata_of_validate_ok core request response s hv] at hn ⊢
    exact (run_failure_at core request _ response s n spec code msg hn).1
  · intro hfail
    obtain ⟨hm, hne, hsup⟩ := validate_ok request hv
    rw [getModelMetadata_of_validate_ok core request response s hv]
    cases hfl : request.metadata_field with
    | nil => exact absurd hfl hne
    | cons f rest =>
      rcases hr : core.GetServableHandle s request.model_spec with ⟨r, s1⟩
      rw [hr] at hfail
      simp only at hfail
      subst hfail
      rw [run_cons_failed core request f rest response s s1 code msg
        (hsup f (by rw [hfl]; exact List.mem_cons_self f rest)) hr]

/-- Witness of C9: the model is unknown to the resolver; NOT_FOUND comes back as is. -/
theorem GetModelMetadata_resolver_error_verbatim_witness :
    ValidateGetModelMetadataRequest
      ⟨some ⟨"m", none, ""⟩, ["preprocessing_settings", "signature_def"]⟩ = Status.OK ∧
    (GetModelMetadata notFoundCore
      ⟨some ⟨"m", none, ""⟩, ["preprocessing_settings", "signature_def"]⟩
      GetModelMetadataResponse.empty 0).1 =
        Status.Error error.Code.NOT_FOUND "Servable not found for request: m" :=
  ⟨by decide,
    (GetModelMetadata_resolver_error_verbatim notFoundCore
      ⟨some ⟨"m", none, ""⟩, ["preprocessing_settings", "signature_def"]⟩
      GetModelMetadataResponse.empty 0 error.Code.NOT_FOUND
      "Servable not found for request: m" (by decide)).2.2 (by decide)⟩

/-- C10: when the resolver's answer is a fixed function of the model identifier, two
runs of GetModelMetadata on the same request and the same initial response return
the same status and the same response (ModelSpec and metadata map), whatever the
state of the core at the start of each run. -/
theorem GetModelMetadata_deterministic {σ : Type} (core : ServerCore σ)
    (request : GetModelMetadataRequest) (response : GetModelMetadataResponse)
    (answer : ModelSpec → Resolved)
    (hfix : ∀ st spec, (core.GetServableHandle st spec).1 = answer spec) (s1 s2 : σ) :
    (GetModelMetadata core request response s1).1 =
      (GetModelMetadata core request response s2).1 ∧
    (GetModelMetadata core request response s1).2.response =
      (GetModelMetadata core request response s2).2.response := by
  cases hv : ValidateGetModelMetadataRequest request with
  | Error code msg =>
    rw [getModelMetadata_of_validate_error core request response s1 code msg hv,
      getModelMetadata_of_validate_error core request response s2 code msg hv]
    exact ⟨rfl, rfl⟩
  | OK =>
    rw [getModelMetadata_of_validate_ok core request response s1 hv,
      getModelMetadata_of_validate_ok core request response s2 hv]
    have e1 := run_eq_dispatchWith core request (answer request.model_spec)
      (fun st => hfix st _) request.metadata_field response s1
    have e2 := run_eq_dispatchWith core request (answer request.model_spec)
      (fun st => hfix st _) request.metadata_field response s2
    have e := e1.trans e2.symm
    exact ⟨(Prod.mk.inj e).1, (Prod.mk.inj e).2⟩

/-- Witness of C10: the second run starts in the core state the first one left. -/
theorem GetModelMetadata_deterministic_witness :
    (∀ st spec, ((constCore sampleHandle).GetServableHandle st spec).1 =
      Resolved.handle sampleHandle) ∧
    (GetModelMetadata (constCore sampleHandle)
      ⟨some ⟨"m", none, ""⟩, ["signature_def", "preprocessing_settings"]⟩
      GetModelMetadataResponse.empty 0).2.response =
    (GetModelMetadata (constCore sampleHandle)
      ⟨some ⟨"m", none, ""⟩, ["signature_def", "preprocessing_settings"]⟩
      GetModelMetadataResponse.empty
      (GetModelMetadata (constCore sampleHandle)
        ⟨some ⟨"m", none, ""⟩, ["signature_def", "preprocessing_settings"]⟩
        GetModelMetadataResponse.empty 0).2.state).2.response :=
  ⟨fun _ _ => rfl,
    (GetModelMetadata_deterministic (constCore sampleHandle)
      ⟨some ⟨"m", none, ""⟩, ["signature_def", "preprocessing_settings"]⟩
      GetModelMetadataResponse.empty (fun _ => Resolved.handle sampleHandle)
      (fun _ _ => rfl) 0 _).2⟩

/-- C11: ValidateGetModelMetadataRequest returns OK exactly when the model identifier
is present, the kind list is non-empty and every kind is signature_def or
preprocessing_settings; otherwise it reports the first violated rule, in the order
missing model identifier, empty kind list, unsupported kind, and for the third rule
the kind it reports is the first unsupported entry of the list. -/
theorem ValidateGetModelMetadataRequest_characterised (request : GetModelMetadataRequest) :
    (ValidateGetModelMetadataRequest request = Status.OK ↔
      request.has_model_spec = true ∧ request.metadata_field ≠ [] ∧
      ∀ f ∈ request.metadata_field, f = kSignatureDef ∨ f = kPreProcessingSettings) ∧
    (request.has_model_spec = false →
      ValidateGetModelMetadataRequest request =
        Status.Error error.Code.INVALID_ARGUMENT "Missing ModelSpec") ∧
    (request.has_model_spec = true → request.metadata_field = [] →
      ValidateGetModelMetadataRequest request =
        Status.Error error.Code.INVALID_ARGUMENT
          "GetModelMetadataRequest must specify at least one metadata_field") ∧
    (request.has_model_spec = true →
      ∀ front k back, request.metadata_field = front ++ k :: back →
        (∀ f ∈ front, f = kSignatureDef ∨ f = kPreProcessingSettings) →
        k ≠ kSignatureDef → k ≠ kPreProcessingSettings →
        ValidateGetModelMetadataRequest request =
          errors.InvalidArgument ["Metadata field %s is not supported", k]) := by
  refine ⟨⟨validate_ok request, ?_⟩, ?_, ?_, ?_⟩
  · rintro ⟨hm, hne, hall⟩
    rw [validate_eq_loop request hm hne]
    exact (validate_loop_ok_iff _).2 hall
  · intro hm
    unfold ValidateGetModelMetadataRequest
    simp [hm]
  · intro hm hnil
    unfold ValidateGetModelMetadataRequest GetModelMetadataRequest.metadata_field_size
    simp [hm, hnil]
  · intro hm front k back hfields hfront h1 h2
    rw [validate_eq_loop request hm (by rw [hfields]; simp), hfields]
    exact validate_loop_first_unsupported front back k hfront h1 h2

/-- Witness of C11: two unsupported kinds after a supported one; the first of them is
reported. -/
theorem ValidateGetModelMetadataRequest_characterised_witness :
    (⟨some ⟨"m", none, ""⟩, ["signature_def", "bogus", "other"]⟩ :
      GetModelMetadataRequest).has_model_spec = true ∧
    ValidateGetModelMetadataRequest
      ⟨some ⟨"m", none, ""⟩, ["signature_def", "bogus", "other"]⟩ =
      errors.InvalidArgument ["Metadata field %s is not supported", "bogus"] :=
  ⟨by decide,
    (ValidateGetModelMetadataRequest_characterised
      ⟨some ⟨"m", none, ""⟩, ["signature_def", "bogus", "other"]⟩).2.2.2 (by decide)
      ["signature_def"] "bogus" ["other"] rfl (by decide) (by decide) (by decide)⟩

/-- C12, evaluated on the code: for a request with a model identifier and the single
kind bogus, the validator's message is the format text with the kind appended after
it; the placeholder is still in the message and the kind does not stand between
"field " and " is not supported". -/
theorem ValidateGetModelMetadataRequest_message_keeps_placeholder :
    ValidateGetModelMetadataRequest ⟨some ⟨"m", none, ""⟩, ["bogus"]⟩ =
      Status.Error error.Code.INVALID_ARGUMENT "Metadata field %s is not supportedbogus" ∧
    (ValidateGetModelMetadataRequest ⟨some ⟨"m", none, ""⟩, ["bogus"]⟩).error_message ≠
      "Metadata field bogus is not supported" ∧
    "%s".data <:+:
      (ValidateGetModelMetadataRequest ⟨some ⟨"m", none, ""⟩, ["bogus"]⟩).error_message.data ∧
    ¬ "field bogus is".data <:+:
      (ValidateGetModelMetadataRequest ⟨some ⟨"m", none, ""⟩, ["bogus"]⟩).error_message.data := by
  decide

/-- C13: for a request that passes validation and lists preprocessing_settings, against
a model that resolves to a bundle whose collection PreProcessingSettings holds the
blobs b1..bn (n at least 1), GetModelMetadata succeeds and the entry under key
preprocessing_settings is the string wrapper of bn; the earlier blobs do not
influence the response: a bundle with the same identity, the same signature table
and any blob list ending in bn yields the same response. -/
theorem GetModelMetadata_last_blob_wins {σ : Type} (core : ServerCore σ)
    (request : GetModelMetadataRequest) (response : GetModelMetadataResponse) (s : σ)
    (bundle : ServableHandle) (assets : CollectionDef) (front : List String) (last : String)
    (hv : ValidateGetModelMetadataRequest request = Status.OK)
    (hpre : kPreProcessingSettings ∈ request.metadata_field)
    (hres : ∀ st, (core.GetServableHandle st request.model_spec).1 = Resolved.handle bundle)
    (hfind : bundle.meta_graph_def.collection_def.find "PreProcessingSettings" = some assets)
    (hblobs : assets.bytes_list_value = front ++ [last]) :
    (GetModelMetadata core request response s).1 = Status.OK ∧
    (GetModelMetadata core request response s).2.response.metadata.find
      kPreProcessingSettings = some (Any.StringValue ⟨last⟩) ∧
    ∀ (core2 : ServerCore σ) (s2 : σ) (bundle2 : ServableHandle) (assets2 : CollectionDef)
      (front2 : List String),
      (∀ st, (core2.GetServableHandle st request.model_spec).1 = Resolved.handle bundle2) →
      bundle2.id = bundle.id →
      bundle2.meta_graph_def.signature_def = bundle.meta_graph_def.signature_def →
      bundle2.meta_graph_def.collection_def.find "PreProcessingSettings" = some assets2 →
      assets2.bytes_list_value = front2 ++ [last] →
      (GetModelMetadata core2 request response s2).1 = Status.OK ∧
      (GetModelMetadata core2 request response s2).2.response =
        (GetModelMetadata core request response s).2.response := by
  have hsup := (validate_ok request hv).2.2
  have hpay := preProcessingPayload_last bundle assets front last hfind hblobs
  obtain ⟨e1, e2⟩ := getModelMetadata_eq_dispatchWith core request _ hres hv response s
  have hok := dispatchWith_handle_ok bundle request.metadata_field response hsup
  refine ⟨e1.trans hok, ?_, ?_⟩
  · rw [e2, dispatchWith_handle_find bundle _ response _ hsup]
    have hne : kPreProcessingSettings ≠ kSignatureDef := by decide
    simp only [expectedFind, hne, false_and, if_false, hpre, and_self, if_true, hpay]
  · intro core2 s2 bundle2 assets2 front2 hres2 hid hsig hfind2 hblobs2
    have hpay2 := preProcessingPayload_last bundle2 assets2 front2 last hfind2 hblobs2
    obtain ⟨d1, d2⟩ := getModelMetadata_eq_dispatchWith core2 request _ hres2 hv response s2
    have hc := dispatchWith_congr bundle2 bundle hid hsig (hpay2.trans hpay.symm)
      request.metadata_field response
    rw [d1, d2, e2, hc]
    exact ⟨hok, rfl⟩

/-- Witness of C13: the collection of the sample bundle holds the blobs a and b; the
entry is the wrapper of b. -/
theorem GetModelMetadata_last_blob_wins_witness :
    ValidateGetModelMetadataRequest
      ⟨some ⟨"m", none, ""⟩, ["signature_def", "preprocessing_settings"]⟩ = Status.OK ∧
    sampleHandle.meta_graph_def.collection_def.find "PreProcessingSettings" =
      some (CollectionDef.bytes_list ["a", "b"]) ∧
    (GetModelMetadata (constCore sampleHandle)
      ⟨some ⟨"m", none, ""⟩, ["signature_def", "preprocessing_settings"]⟩
      GetModelMetadataResponse.empty 0).2.response.metadata.find kPreProcessingSettings =
        some (Any.StringValue ⟨"b"⟩) :=
  ⟨by decide, by decide,
    (GetModelMetadata_last_blob_wins (constCore sampleHandle)
      ⟨some ⟨"m", none, ""⟩, ["signature_def", "preprocessing_settings"]⟩
      GetModelMetadataResponse.empty 0 sampleHandle (CollectionDef.bytes_list ["a", "b"])
      ["a"] "b" (by decide) (by decide) (fun _ => rfl) (by decide) rfl).2.1⟩

/-- C14, refuted as stated: a successful call for two kinds invokes the resolver
twice, not once. -/
theorem GetModelMetadata_resolves_once_per_kind_not_per_call :
    (GetModelMetadata (constCore sampleHandle)
      ⟨some ⟨"m", none, ""⟩, ["signature_def", "preprocessing_settings"]⟩
      GetModelMetadataResponse.empty 0).1 = Status.OK ∧
    (GetModelMetadata (constCore sampleHandle)
      ⟨some ⟨"m", none, ""⟩, ["signature_def", "preprocessing_settings"]⟩
      GetModelMetadataResponse.empty 0).2.calls.length = 2 ∧
    (GetModelMetadata (constCore sampleHandle)
      ⟨some ⟨"m", none, ""⟩, ["signature_def", "preprocessing_settings"]⟩
      GetModelMetadataResponse.empty 0).2.state = 2 := by
  decide

/-- C14, amended: a successful call of GetModelMetadata invokes the resolver once for
every requested kind, repeated kinds included: the number of invocations equals the
length of the kind list, so it is 1 exactly when a single kind is requested. -/
theorem GetModelMetadata_resolver_invocations {σ : Type} (core : ServerCore σ)
    (request : GetModelMetadataRequest) (response : GetModelMetadataResponse) (s : σ)
    (h : (GetModelMetadata core request response s).1 = Status.OK) :
    (GetModelMetadata core request response s).2.calls.length =
      request.metadata_field.length ∧
    ((GetModelMetadata core request response s).2.calls.length = 1 ↔
      request.metadata_field.length = 1) ∧
    ∀ entry ∈ (GetModelMetadata core request response s).2.calls,
      entry.1 = request.model_spec := by
  cases hv : ValidateGetModelMetadataRequest request with
  | Error code msg =>
    rw [getModelMetadata_of_validate_error core request response s code msg hv] at h
    cases h
  | OK =>
    rw [getModelMetadata_of_validate_ok core request response s hv] at h ⊢
    have hl := run_ok_calls_length core request _ response s h
    refine ⟨hl, by rw [hl], ?_⟩
    exact run_calls_spec core request _ response s

/-- Witness of C14 amended: three kinds, one of them repeated, three invocations. -/
theorem GetModelMetadata_resolver_invocations_witness :
    (GetModelMetadata (constCore sampleHandle)
      ⟨some ⟨"m", none, ""⟩, ["signature_def", "preprocessing_settings", "signature_def"]⟩
      GetModelMetadataResponse.empty 0).1 = Status.OK ∧
    (GetModelMetadata (constCore sampleHandle)
      ⟨some ⟨"m", none, ""⟩, ["signature_def", "preprocessing_settings", "signature_def"]⟩
      GetModelMetadataResponse.empty 0).2.calls.length = 3 :=
  ⟨by decide,
    (GetModelMetadata_resolver_invocations (constCore sampleHandle)
      ⟨some ⟨"m", none, ""⟩, ["signature_def", "preprocessing_settings", "signature_def"]⟩
      GetModelMetadataResponse.empty 0 (by decide)).1⟩

/-- C15: with a resolver whose answer is a fixed function of the model identifier, two
requests that pass validation, name the same model and list the same kinds in a
different order give the same outcome from the same initial response: the same
status, the same ModelSpec and the same entry under every key of the metadata
map. -/
theorem GetModelMetadata_kind_order_irrelevant {σ : Type} (core : ServerCore σ)
    (answer : ModelSpec → Resolved)
    (request1 request2 : GetModelMetadataRequest) (response : GetModelMetadataResponse)
    (s1 s2 : σ)
    (hfix : ∀ st spec, (core.GetServableHandle st spec).1 = answer spec)
    (hv1 : ValidateGetModelMetadataRequest request1 = Status.OK)
    (hv2 : ValidateGetModelMetadataRequest request2 = Status.OK)
    (hspec : request1.model_spec? = request2.model_spec?)
    (hperm : request1.metadata_field.Perm request2.metadata_field) :
    (GetModelMetadata core request1 response s1).1 =
      (GetModelMetadata core request2 response s2).1 ∧
    (GetModelMetadata core request1 response s1).2.response.model_spec? =
      (GetModelMetadata core request2 response s2).2.response.model_spec? ∧
    ∀ k, (GetModelMetadata core request1 response s1).2.response.metadata.find k =
      (GetModelMetadata core request2 response s2).2.response.metadata.find k := by
  have hms : request2.model_spec = request1.model_spec := by
    unfold GetModelMetadataRequest.model_spec
    rw [hspec]
  obtain ⟨a1, a2⟩ := getModelMetadata_eq_dispatchWith core request1
    (answer request1.model_spec) (fun st => hfix st _) hv1 response s1
  obtain ⟨b1, b2⟩ := getModelMetadata_eq_dispatchWith core request2
    (answer request1.model_spec) (fun st => by rw [hms]; exact hfix st _) hv2 response s2
  obtain ⟨_, hne1, hs1⟩ := validate_ok request1 hv1
  obtain ⟨_, hne2, hs2⟩ := validate_ok request2 hv2
  rw [a1, a2, b1, b2]
  exact dispatchWith_same_members (answer request1.model_spec) _ _ response hs1 hs2 hne1 hne2
    (fun f => hperm.mem_iff)

/-- Witness of C15: the two supported kinds in both orders. -/
theorem GetModelMetadata_kind_order_irrelevant_witness :
    ValidateGetModelMetadataRequest
      ⟨some ⟨"m", none, ""⟩, ["signature_def", "preprocessing_settings"]⟩ = Status.OK ∧
    ∀ k, (GetModelMetadata (constCore sampleHandle)
        ⟨some ⟨"m", none, ""⟩, ["signature_def", "preprocessing_settings"]⟩
        GetModelMetadataResponse.empty 0).2.response.metadata.find k =
      (GetModelMetadata (constCore sampleHandle)
        ⟨some ⟨"m", none, ""⟩, ["preprocessing_settings", "signature_def"]⟩
        GetModelMetadataResponse.empty 0).2.response.metadata.find k :=
  ⟨by decide,
    (GetModelMetadata_kind_order_irrelevant (constCore sampleHandle)
      (fun _ => Resolved.handle sampleHandle)
      ⟨some ⟨"m", none, ""⟩, ["signature_def", "preprocessing_settings"]⟩
      ⟨some ⟨"m", none, ""⟩, ["preprocessing_settings", "signature_def"]⟩
      GetModelMetadataResponse.empty 0 0 (fun _ _ => rfl) (by decide) (by decide) rfl
      (List.Perm.swap _ _ _)).2.2⟩

/-- C16: against a model that resolves to a bundle, the request for signature_def and
preprocessing_settings has both keys populated independently: its signature_def
entry is the one of the request for signature_def alone, its preprocessing_settings
entry, present or absent, is the one of the request for preprocessing_settings
alone, and neither extractor changes the entry under the other's key. -/
theorem GetModelMetadata_kinds_independent {σ : Type} (core : ServerCore σ)
    (spec : ModelSpec) (bundle : ServableHandle) (response : GetModelMetadataResponse)
    (s1 s2 s3 : σ)
    (hres : ∀ st, (core.GetServableHandle st spec).1 = Resolved.handle bundle) :
    (GetModelMetadata core ⟨some spec, [kSignatureDef, kPreProcessingSettings]⟩
      response s1).1 = Status.OK ∧
    (GetModelMetadata core ⟨some spec, [kSignatureDef, kPreProcessingSettings]⟩
      response s1).2.response.metadata.find kSignatureDef =
      (GetModelMetadata core ⟨some spec, [kSignatureDef]⟩
        response s2).2.response.metadata.find kSignatureDef ∧
    (GetModelMetadata core ⟨some spec, [kSignatureDef, kPreProcessingSettings]⟩
      response s1).2.response.metadata.find kPreProcessingSettings =
      (GetModelMetadata core ⟨some spec, [kPreProcessingSettings]⟩
        response s3).2.response.metadata.find kPreProcessingSettings ∧
    (GetModelMetadata core ⟨some spec, [kSignatureDef]⟩
      response s2).2.response.metadata.find kPreProcessingSettings =
      response.metadata.find kPreProcessingSettings ∧
    (GetModelMetadata core ⟨some spec, [kPreProcessingSettings]⟩
      response s3).2.response.metadata.find kSignatureDef =
      response.metadata.find kSignatureDef := by
  have hne : kPreProcessingSettings ≠ kSignatureDef := by decide
  have hne2 : kSignatureDef ≠ kPreProcessingSettings := by decide
  have hsup : ∀ fields : List String,
      (∀ f ∈ fields, f = kSignatureDef ∨ f = kPreProcessingSettings) → fields ≠ [] →
      ∀ (s : σ) (k : String),
        (GetModelMetadata core ⟨some spec, fields⟩ response s).1 = Status.OK ∧
        (GetModelMetadata core ⟨some spec, fields⟩ response s).2.response.metadata.find k =
          expectedFind bundle fields response k := by
    intro fields hall hnil s k
    have hv : ValidateGetModelMetadataRequest ⟨some spec, fields⟩ = Status.OK :=
      validate_of_supported ⟨some spec, fields⟩ rfl hnil hall
    obtain ⟨e1, e2⟩ := getModelMetadata_eq_dispatchWith core ⟨some spec, fields⟩
      (Resolved.handle bundle) hres hv response s
    rw [e1, e2]
    exact ⟨dispatchWith_handle_ok bundle fields response hall,
      dispatchWith_handle_find bundle fields response k hall⟩
  have hboth : ∀ f ∈ [kSignatureDef, kPreProcessingSettings],
      f = kSignatureDef ∨ f = kPreProcessingSettings := by
    intro f hf
    simpa using hf
  have hsig : ∀ f ∈ [kSignatureDef], f = kSignatureDef ∨ f = kPreProcessingSettings := by
    intro f hf
    left
    simpa using hf
  have hpre : ∀ f ∈ [kPreProcessingSettings],
      f = kSignatureDef ∨ f = kPreProcessingSettings := by
    intro f hf
    right
    simpa using hf
  refine ⟨(hsup _ hboth (by simp) s1 kSignatureDef).1, ?_, ?_, ?_, ?_⟩
  · rw [(hsup _ hboth (by simp) s1 kSignatureDef).2, (hsup _ hsig (by simp) s2 kSignatureDef).2]
    simp [expectedFind]
  · rw [(hsup _ hboth (by simp) s1 kPreProcessingSettings).2,
      (hsup _ hpre (by simp) s3 kPreProcessingSettings).2]
    simp [expectedFind, hne]
  · rw [(hsup _ hsig (by simp) s2 kPreProcessingSettings).2]
    simp [expectedFind, hne]
  · rw [(hsup _ hpre (by simp) s3 kSignatureDef).2]
    simp [expectedFind, hne2]

/-- Witness of C16: the sample bundle, whose collection ends in blob b. -/
theorem GetModelMetadata_kinds_independent_witness :
    (∀ st, ((constCore sampleHandle).GetServableHandle st ⟨"m", none, ""⟩).1 =
      Resolved.handle sampleHandle) ∧
    (GetModelMetadata (constCore sampleHandle)
      ⟨some ⟨"m", none, ""⟩, [kSignatureDef, kPreProcessingSettings]⟩
      GetModelMetadataResponse.empty 0).2.response.metadata.find kPreProcessingSettings =
      (GetModelMetadata (constCore sampleHandle)
        ⟨some ⟨"m", none, ""⟩, [kPreProcessingSettings]⟩
        GetModelMetadataResponse.empty 0).2.response.metadata.find kPreProcessingSettings :=
  ⟨fun _ => rfl,
    (GetModelMetadata_kinds_independent (constCore sampleHandle) ⟨"m", none, ""⟩
      sampleHandle GetModelMetadataResponse.empty 0 0 0 (fun _ => rfl)).2.2.1⟩

/-- C17: after a successful validation the dispatcher's own check is never reached:
no requested kind satisfies the guard of the final else branch, every error that
GetModelMetadata returns is the failure of its last resolver invocation, and the
call succeeds whenever every resolver invocation returned a handle. -/
theorem GetModelMetadata_unsupported_branch_unreachable {σ : Type} (core : ServerCore σ)
    (request : GetModelMetadataRequest) (response : GetModelMetadataResponse) (s : σ)
    (hv : ValidateGetModelMetadataRequest request = Status.OK) :
    (∀ f ∈ request.metadata_field, f = kSignatureDef ∨ f = kPreProcessingSettings) ∧
    (∀ code msg, (GetModelMetadata core request response s).1 = Status.Error code msg →
      (GetModelMetadata core request response s).2.calls.getLast? =
        some (request.model_spec, Resolved.failed code msg)) ∧
    ((∀ entry ∈ (GetModelMetadata core request response s).2.calls,
        ∃ bundle, entry.2 = Resolved.handle bundle) →
      (GetModelMetadata core request response s).1 = Status.OK) := by
  have hsup := (validate_ok request hv).2.2
  rw [getModelMetadata_of_validate_ok core request response s hv]
  have herr : ∀ code msg, (run core request request.metadata_field response s).1 =
      Status.Error code msg →
      (run core request request.metadata_field response s).2.calls.getLast? =
        some (request.model_spec, Resolved.failed code msg) :=
    fun code msg h => run_error_from_resolver core request _ response s code msg hsup h
  refine ⟨hsup, herr, ?_⟩
  intro hall
  cases hst : (run core request request.metadata_field response s).1 with
  | OK => rfl
  | Error code msg =>
    have hl := herr code msg hst
    obtain ⟨bundle, hb⟩ := hall _ (List.mem_of_getLast?_eq_some hl)
    cases hb

/-- Witness of C17: the only error a validated call returns here is the resolver's. -/
theorem GetModelMetadata_unsupported_branch_unreachable_witness :
    ValidateGetModelMetadataRequest
      ⟨some ⟨"m", none, ""⟩, ["signature_def", "preprocessing_settings"]⟩ = Status.OK ∧
    (GetModelMetadata flakyCore
      ⟨some ⟨"m", none, ""⟩, ["signature_def", "preprocessing_settings"]⟩
      GetModelMetadataResponse.empty 0).2.calls.getLast? =
      some (⟨"m", none, ""⟩, Resolved.failed error.Code.UNAVAILABLE "servable unloaded") :=
  ⟨by decide,
    (GetModelMetadata_unsupported_branch_unreachable flakyCore
      ⟨some ⟨"m", none, ""⟩, ["signature_def", "preprocessing_settings"]⟩
      GetModelMetadataResponse.empty 0 (by decide)).2.1
      error.Code.UNAVAILABLE "servable unloaded" (by decide)⟩

/-- C18: when GetModelMetadata succeeds, every key of the response's metadata map was
a key on entry or is a requested kind, every entry under a key that was not
requested is the one held on entry, and key signature_def is present whenever
signature_def was requested. -/
theorem GetModelMetadata_frame {σ : Type} (core : ServerCore σ)
    (request : GetModelMetadataRequest) (response : GetModelMetadataResponse) (s : σ)
    (h : (GetModelMetadata core request response s).1 = Status.OK) :
    (∀ k ∈ (GetModelMetadata core request response s).2.response.metadata.keys,
      k ∈ response.metadata.keys ∨ k ∈ request.metadata_field) ∧
    (∀ k, k ∉ request.metadata_field →
      (GetModelMetadata core request response s).2.response.metadata.find k =
        response.metadata.find k) ∧
    (kSignatureDef ∈ request.metadata_field →
      kSignatureDef ∈ (GetModelMetadata core request response s).2.response.metadata.keys) := by
  cases hv : ValidateGetModelMetadataRequest request with
  | Error code msg =>
    rw [getModelMetadata_of_validate_error core request response s code msg hv] at h
    cases h
  | OK =>
    rw [getModelMetadata_of_validate_ok core request response s hv] at h ⊢
    obtain ⟨hframe, hsig⟩ := run_ok_frame core request _ response s h
    refine ⟨?_, hframe, ?_⟩
    · intro k hk
      by_cases hreq : k ∈ request.metadata_field
      · exact Or.inr hreq
      · left
        rw [mem_keys_iff] at hk ⊢
        rw [← hframe k hreq]
        exact hk
    · intro hm
      obtain ⟨m, hfound⟩ := hsig hm
      rw [mem_keys_iff, hfound]
      exact Option.some_ne_none _

/-- Witness of C18: the response passed in holds an entry under a key of its own,
which the call leaves in place. -/
theorem GetModelMetadata_frame_witness :
    (GetModelMetadata (constCore sampleHandle)
      ⟨some ⟨"m", none, ""⟩, ["preprocessing_settings", "signature_def"]⟩
      ⟨none, ProtoMap.empty.set "k" (Any.StringValue ⟨"v"⟩)⟩ 0).1 = Status.OK ∧
    (GetModelMetadata (constCore sampleHandle)
      ⟨some ⟨"m", none, ""⟩, ["preprocessing_settings", "signature_def"]⟩
      ⟨none, ProtoMap.empty.set "k" (Any.StringValue ⟨"v"⟩)⟩ 0).2.response.metadata.find "k" =
      (⟨none, ProtoMap.empty.set "k" (Any.StringValue ⟨"v"⟩)⟩ :
        GetModelMetadataResponse).metadata.find "k" :=
  ⟨by decide,
    (GetModelMetadata_frame (constCore sampleHandle)
      ⟨some ⟨"m", none, ""⟩, ["preprocessing_settings", "signature_def"]⟩
      ⟨none, ProtoMap.empty.set "k" (Any.StringValue ⟨"v"⟩)⟩ 0 (by decide)).2.1 "k"
      (by decide)⟩

/-- C19: a request whose only requested kind is preprocessing_settings, issued with an
empty response against a model that resolves to a bundle whose collection
PreProcessingSettings is present with an empty blob list, succeeds with the
ModelSpec of the resolved handle and no preprocessing_settings entry; the response
is the one obtained from a bundle with the same identity that lacks the
collection. -/
theorem GetModelMetadata_empty_blob_list {σ : Type} (core : ServerCore σ)
    (request : GetModelMetadataRequest) (s : σ) (bundle : ServableHandle)
    (assets : CollectionDef)
    (hm : request.has_model_spec = true)
    (hne : request.metadata_field ≠ [])
    (hall : ∀ f ∈ request.metadata_field, f = kPreProcessingSettings)
    (hres : ∀ st, (core.GetServableHandle st request.model_spec).1 = Resolved.handle bundle)
    (hfind : bundle.meta_graph_def.collection_def.find "PreProcessingSettings" = some assets)
    (hblobs : assets.bytes_list_value = []) :
    (GetModelMetadata core request GetModelMetadataResponse.empty s).1 = Status.OK ∧
    (GetModelMetadata core request GetModelMetadataResponse.empty s).2.response.model_spec? =
      some ⟨bundle.id.name, some bundle.id.version, ""⟩ ∧
    (GetModelMetadata core request
      GetModelMetadataResponse.empty s).2.response.metadata.find kPreProcessingSettings = none ∧
    ∀ (core2 : ServerCore σ) (s2 : σ) (bundle2 : ServableHandle),
      (∀ st, (core2.GetServableHandle st request.model_spec).1 = Resolved.handle bundle2) →
      bundle2.id = bundle.id →
      bundle2.meta_graph_def.collection_def.find "PreProcessingSettings" = none →
      (GetModelMetadata core2 request GetModelMetadataResponse.empty s2).1 = Status.OK ∧
      (GetModelMetadata core2 request GetModelMetadataResponse.empty s2).2.response =
        (GetModelMetadata core request GetModelMetadataResponse.empty s).2.response := by
  have hv : ValidateGetModelMetadataRequest request = Status.OK :=
    validate_of_supported request hm hne (fun f hf => Or.inr (hall f hf))
  have hpay := preProcessingPayload_no_blob bundle assets hfind hblobs
  obtain ⟨e1, e2⟩ := getModelMetadata_eq_dispatchWith core request _ hres hv
    GetModelMetadataResponse.empty s
  cases hfl : request.metadata_field with
  | nil => exact absurd hfl hne
  | cons f rest =>
    rw [hfl] at hall
    have hf := hall f (List.mem_cons_self f rest)
    subst hf
    have hrest : ∀ g ∈ rest, g = kPreProcessingSettings :=
      fun g hg => hall g (List.mem_cons_of_mem _ hg)
    rw [hfl, dispatchWith_handle_no_payload bundle hpay rest _ hrest] at e1 e2
    simp only at e1 e2
    rw [e1, e2]
    refine ⟨rfl, rfl, rfl, ?_⟩
    intro core2 s2 bundle2 hres2 hid hfind2
    obtain ⟨d1, d2⟩ := getModelMetadata_eq_dispatchWith core2 request _ hres2 hv
      GetModelMetadataResponse.empty s2
    rw [hfl, dispatchWith_handle_no_payload bundle2
      (preProcessingPayload_absent bundle2 hfind2) rest _ hrest] at d1 d2
    simp only at d1 d2
    rw [d1, d2, hid]
    exact ⟨rfl, rfl⟩

/-- Witness of C19: the response equals the one for the bundle without collection. -/
theorem GetModelMetadata_empty_blob_list_witness :
    emptyBlobsHandle.meta_graph_def.collection_def.find "PreProcessingSettings" =
      some (CollectionDef.bytes_list []) ∧
    bareHandle.meta_graph_def.collection_def.find "PreProcessingSettings" = none ∧
    (GetModelMetadata (constCore bareHandle)
      ⟨some ⟨"m", none, ""⟩, ["preprocessing_settings"]⟩
      GetModelMetadataResponse.empty 0).2.response =
    (GetModelMetadata (constCore emptyBlobsHandle)
      ⟨some ⟨"m", none, ""⟩, ["preprocessing_settings"]⟩
      GetModelMetadataResponse.empty 0).2.response :=
  ⟨by decide, by decide,
    ((GetModelMetadata_empty_blob_list (constCore emptyBlobsHandle)
      ⟨some ⟨"m", none, ""⟩, ["preprocessing_settings"]⟩ 0 emptyBlobsHandle
      (CollectionDef.bytes_list []) (by decide) (by decide) (by decide) (fun _ => rfl)
      (by decide) rfl).2.2.2
      (constCore bareHandle) 0 bareHandle (fun _ => rfl) rfl (by decide)).2⟩

/-- C20: with a resolver whose answer is a fixed function of the model identifier, if
the request with the duplicates of its kind list removed passes validation, then
the request itself passes validation too and GetModelMetadata gives the same
outcome for both from the same initial response: the same status, the same
ModelSpec and the same entry under every key of the metadata map. -/
theorem GetModelMetadata_duplicates_harmless {σ : Type} (core : ServerCore σ)
    (answer : ModelSpec → Resolved)
    (request : GetModelMetadataRequest) (response : GetModelMetadataResponse) (s1 s2 : σ)
    (hfix : ∀ st spec, (core.GetServableHandle st spec).1 = answer spec)
    (hv : ValidateGetModelMetadataRequest
      ⟨request.model_spec?, request.metadata_field.dedup⟩ = Status.OK) :
    ValidateGetModelMetadataRequest request = Status.OK ∧
    (GetModelMetadata core request response s1).1 =
      (GetModelMetadata core ⟨request.model_spec?, request.metadata_field.dedup⟩
        response s2).1 ∧
    (GetModelMetadata core request response s1).2.response.model_spec? =
      (GetModelMetadata core ⟨request.model_spec?, request.metadata_field.dedup⟩
        response s2).2.response.model_spec? ∧
    ∀ k, (GetModelMetadata core request response s1).2.response.metadata.find k =
      (GetModelMetadata core ⟨request.model_spec?, request.metadata_field.dedup⟩
        response s2).2.response.metadata.find k := by
  obtain ⟨hm, hne2, hs2⟩ := validate_ok _ hv
  simp only at hne2 hs2
  have hs1 : ∀ f ∈ request.metadata_field, f = kSignatureDef ∨ f = kPreProcessingSettings :=
    fun f hf => hs2 f (List.mem_dedup.2 hf)
  have hne1 : request.metadata_field ≠ [] := by
    intro hnil
    apply hne2
    rw [hnil]
    rfl
  have hv1 : ValidateGetModelMetadataRequest request = Status.OK :=
    validate_of_supported request hm hne1 hs1
  obtain ⟨a1, a2⟩ := getModelMetadata_eq_dispatchWith core request
    (answer request.model_spec) (fun st => hfix st _) hv1 response s1
  obtain ⟨b1, b2⟩ := getModelMetadata_eq_dispatchWith core
    ⟨request.model_spec?, request.metadata_field.dedup⟩
    (answer request.model_spec) (fun st => hfix st _) hv response s2
  simp only at b1 b2
  rw [a1, a2, b1, b2]
  exact ⟨hv1, dispatchWith_same_members (answer request.model_spec) _ _ response hs1 hs2
    hne1 hne2 (fun f => List.mem_dedup.symm)⟩

/-- Witness of C20: signature_def requested twice. -/
theorem GetModelMetadata_duplicates_harmless_witness :
    ValidateGetModelMetadataRequest
      ⟨some ⟨"m", none, ""⟩, ["signature_def", "signature_def"].dedup⟩ = Status.OK ∧
    ValidateGetModelMetadataRequest
      ⟨some ⟨"m", none, ""⟩, ["signature_def", "signature_def"]⟩ = Status.OK ∧
    ∀ k, (GetModelMetadata (constCore sampleHandle)
        ⟨some ⟨"m", none, ""⟩, ["signature_def", "signature_def"]⟩
        GetModelMetadataResponse.empty 0).2.response.metadata.find k =
      (GetModelMetadata (constCore sampleHandle)
        ⟨some ⟨"m", none, ""⟩, ["signature_def", "signature_def"].dedup⟩
        GetModelMetadataResponse.empty 0).2.response.metadata.find k :=
  ⟨by decide,
    (GetModelMetadata_duplicates_harmless (constCore sampleHandle)
      (fun _ => Resolved.handle sampleHandle)
      ⟨some ⟨"m", none, ""⟩, ["signature_def", "signature_def"]⟩
      GetModelMetadataResponse.empty 0 0 (fun _ _ => rfl) (by decide)).1,
    (GetModelMetadata_duplicates_harmless (constCore sampleHandle)
      (fun _ => Resolved.handle sampleHandle)
      ⟨some ⟨"m", none, ""⟩, ["signature_def", "signature_def"]⟩
      GetModelMetadataResponse.empty 0 0 (fun _ _ => rfl) (by decide)).2.2.2⟩

end serving
end tensorflow
